import Mathlib

/-!
Shallow embedding of the scene-composition / generation-orchestration core of
the story-maker canvas editor (src/App.tsx, src/components/Canvas.tsx,
src/types.ts).  Numbers are modelled as rationals (the source uses JS
doubles), raster payloads as structured data-URL records whose body is the
decoded byte list, and the DOM/React state as explicit record-passing.
-/

namespace StoryMaker

/-- src/types.ts: `Tool` union. -/
inductive Tool where
  | pan
  | select
  | text
  | pen
  | eraser
deriving DecidableEq, Repr

/-- src/types.ts: `ImageClassification` union. -/
inductive ImageClassification where
  | original
  | result
  | character
  | background
  | modelSheet
  | video
deriving DecidableEq, Repr

/-- src/types.ts: `AspectRatio` union (the five literal strings). -/
inductive AspectRatio where
  | r1x1
  | r3x4
  | r4x3
  | r9x16
  | r16x9
deriving DecidableEq, Repr

/-- First component of `aspectRatio.split(':').map(Number)`. -/
def AspectRatio.w : AspectRatio → ℚ
  | .r1x1 => 1
  | .r3x4 => 3
  | .r4x3 => 4
  | .r9x16 => 9
  | .r16x9 => 16

/-- Second component of `aspectRatio.split(':').map(Number)`. -/
def AspectRatio.h : AspectRatio → ℚ
  | .r1x1 => 1
  | .r3x4 => 4
  | .r4x3 => 3
  | .r9x16 => 16
  | .r16x9 => 9

/-- src/types.ts: `CanvasTransform`. -/
structure CanvasTransform where
  x : ℚ
  y : ℚ
  scale : ℚ
deriving DecidableEq, Repr

/-- Screen-to-canvas coordinate mapping.  The canvas content is rendered with
`translate(transform.x, transform.y) scale(transform.scale)`, so a screen point
`p` corresponds to canvas point `(p - origin) / scale` (as computed at e.g.
Canvas.tsx `handleMouseDown`: `(e.clientX - rect.left - transform.x) / transform.scale`). -/
def screenToCanvas (px py : ℚ) (t : CanvasTransform) : ℚ × ℚ :=
  ((px - t.x) / t.scale, (py - t.y) / t.scale)

/-- Canvas.tsx `handleWheel`: anchored zoom.  `scaleAmount` is
`-e.deltaY * 0.001`; the new scale is clamped to `[0.1, 5]` by
`Math.min(Math.max(0.1, transform.scale + scaleAmount), 5)` and the new origin
is `mouse - (mouse - origin) * (newScale / oldScale)`. -/
def handleWheel (t : CanvasTransform) (mouseX mouseY scaleAmount : ℚ) : CanvasTransform :=
  let newScale := min (max (1/10) (t.scale + scaleAmount)) 5
  let newX := mouseX - (mouseX - t.x) * (newScale / t.scale)
  let newY := mouseY - (mouseY - t.y) * (newScale / t.scale)
  { x := newX, y := newY, scale := newScale }

/-- App.tsx `handleMoveToFront`: if `id` is already the last element of the
layer order the order is returned unchanged, otherwise every occurrence of
`id` is filtered out and `id` is appended at the end. -/
def handleMoveToFront (id : String) (prev : List String) : List String :=
  if prev.getLast? = some id then prev
  else prev.filter (fun item => item ≠ id) ++ [id]

/-- A raster/video payload, i.e. a well-formed data URL `data:<mime>;base64,<body>`
viewed structurally: its MIME tag and the decoded bytes of its base64 body. -/
structure DataUrl where
  mimeType : String
  bytes : List Nat
deriving DecidableEq, Repr

/-- App.tsx `parseDataUrl` restricted to well-formed data URLs: it returns the
MIME tag and the base64 body (here: decoded bytes), rewriting the
`application/octet-stream` / `binary/octet-stream` tags to `image/png`
(the API rejects octet-stream). -/
def parseDataUrl (du : DataUrl) : DataUrl :=
  { mimeType :=
      if du.mimeType = "application/octet-stream" ∨ du.mimeType = "binary/octet-stream"
      then "image/png" else du.mimeType,
    bytes := du.bytes }

/-- src/types.ts `ImageObject`, parameterized by the payload representation:
`α = DataUrl` for the live document, `α = Nat` for the saved form where each
payload field holds an archive asset path (the unique
`assets/<kind>_<timestamp>_<random>.<ext>` name, modelled by the fresh
counter that makes it unique). -/
structure ImageObj (α : Type) where
  id : String
  src : α
  x : ℚ
  y : ℚ
  width : ℚ
  height : ℚ
  naturalWidth : ℚ
  naturalHeight : ℚ
  classification : ImageClassification
  name : Option String := none
  prompt : Option String := none
  targetAspectRatio : Option AspectRatio := none
  modelSheetSrc : Option α := none
  poses : Option (List (Option α)) := none
  videoSrc : Option α := none
  maskSrc : Option α := none
deriving DecidableEq, Repr

/-- src/types.ts `TextObject`. -/
structure TextObj where
  id : String
  content : String
  x : ℚ
  y : ℚ
  width : ℚ
  height : ℚ
  fontSize : ℚ
  fontFamily : String
  color : String
deriving DecidableEq, Repr

/-- src/types.ts `DrawingCanvasObject`; `drawingSrc` is optional and the
empty string is falsy in every guard that reads it, so `none` models both
`undefined` and `''`. -/
structure DrawingObj (α : Type) where
  id : String
  x : ℚ
  y : ℚ
  width : ℚ
  height : ℚ
  drawingSrc : Option α := none
deriving DecidableEq, Repr

/-- The App-level React state that the claims touch: the document model
(object collections + layer order), the three selection sets, the active
tool, the view transform, aspect ratio, project name, and the user-facing
error surface. -/
structure AppState where
  images : List (ImageObj DataUrl)
  textObjects : List TextObj
  drawingCanvases : List (DrawingObj DataUrl)
  layerOrder : List String
  selectedImageIds : List String
  selectedTextIds : List String
  selectedDrawingCanvasIds : List String
  activeTool : Tool
  transform : CanvasTransform
  aspectRatio : AspectRatio
  projectName : String
  errorMessage : Option String := none
  isLoading : Bool := false
deriving DecidableEq, Repr

/-- The kind tag passed to Canvas.tsx `handleNodeSelect`. -/
inductive NodeType where
  | image
  | text
  | drawingCanvas
deriving DecidableEq, Repr

/-- Canvas.tsx `handleNodeSelect`: pointer-down on an object.  It first calls
`onMoveToFront(id)` unconditionally, then resets a drawing-context tool to
`select` (the `activeTool` reads below still see the render-time value), then
updates the three selection sets depending on tool and shift key. -/
def handleNodeSelect (shiftKey : Bool) (id : String) (ty : NodeType)
    (s : AppState) : AppState :=
  let s₁ := { s with layerOrder := handleMoveToFront id s.layerOrder }
  let s₂ :=
    if s.activeTool = .text ∨ s.activeTool = .pen ∨ s.activeTool = .eraser
    then { s₁ with activeTool := .select } else s₁
  if s.activeTool ≠ .select ∧ s.activeTool ≠ .pen ∧ s.activeTool ≠ .eraser then
    { s₂ with
      selectedImageIds := if ty = .image then [id] else [],
      selectedTextIds := if ty = .text then [id] else [],
      selectedDrawingCanvasIds := if ty = .drawingCanvas then [id] else [] }
  else
    let isSelected := id ∈ s.selectedImageIds ∨ id ∈ s.selectedTextIds ∨
      id ∈ s.selectedDrawingCanvasIds
    if shiftKey then
      match ty with
      | .image =>
        { s₂ with selectedImageIds :=
            if isSelected then s.selectedImageIds.filter (fun i => i ≠ id)
            else s.selectedImageIds ++ [id] }
      | .text =>
        { s₂ with selectedTextIds :=
            if isSelected then s.selectedTextIds.filter (fun i => i ≠ id)
            else s.selectedTextIds ++ [id] }
      | .drawingCanvas =>
        { s₂ with selectedDrawingCanvasIds :=
            if isSelected then s.selectedDrawingCanvasIds.filter (fun i => i ≠ id)
            else s.selectedDrawingCanvasIds ++ [id] }
    else
      if ¬ isSelected then
        { s₂ with
          selectedImageIds := if ty = .image then [id] else [],
          selectedTextIds := if ty = .text then [id] else [],
          selectedDrawingCanvasIds := if ty = .drawingCanvas then [id] else [] }
      else s₂

/-- The optional `options` bag of App.tsx `addImageToCanvas`. -/
structure AddOpts where
  prompt : Option String := none
  targetAspectRatio : Option AspectRatio := none
  x : Option ℚ := none
  y : Option ℚ := none
  width : Option ℚ := none
  height : Option ℚ := none
  id : Option String := none
deriving DecidableEq, Repr

/-- App.tsx `addImageToCanvas` (the `img.onload` body): builds the new
`ImageObject` — id from `options.id` or the generated `img_${Date.now()}` id
(`genId`), position defaulting to the viewport centre in canvas coordinates —
appends it to `images` and to the layer order, makes it the sole selection and
resets the active tool to `select`.  `naturalW/H` is the decoded intrinsic
size and `clientW/H` the viewport size reported by the DOM. -/
def addImageToCanvas (s : AppState) (imgSrc : DataUrl) (cls : ImageClassification)
    (opts : AddOpts) (genId : String) (naturalW naturalH clientW clientH : ℚ) :
    AppState :=
  let newId := opts.id.getD genId
  let w := opts.width.getD naturalW
  let h := opts.height.getD naturalH
  let newImage : ImageObj DataUrl :=
    { id := newId, src := imgSrc,
      x := opts.x.getD ((-s.transform.x + clientW / 2) / s.transform.scale - w / 2),
      y := opts.y.getD ((-s.transform.y + clientH / 2) / s.transform.scale - h / 2),
      width := w, height := h,
      naturalWidth := naturalW, naturalHeight := naturalH,
      classification := cls,
      prompt := opts.prompt,
      targetAspectRatio := opts.targetAspectRatio }
  { s with images := s.images ++ [newImage],
           layerOrder := s.layerOrder ++ [newImage.id],
           selectedImageIds := [newImage.id],
           selectedTextIds := [],
           selectedDrawingCanvasIds := [],
           activeTool := .select }

/-- App.tsx `addTextToCanvas`: places a new `TextObject` at `(x, y)` with the
default content and styling, appends it to the layer order, and makes it the
sole selection. -/
def addTextToCanvas (s : AppState) (x y : ℚ) (genId : String) : AppState :=
  let newText : TextObj :=
    { id := genId, content := "텍스트를 입력하세요", x := x, y := y,
      fontSize := 48, color := "#000000", fontFamily := "Arial",
      width := 300, height := 60 }
  { s with textObjects := s.textObjects ++ [newText],
           layerOrder := s.layerOrder ++ [newText.id],
           selectedTextIds := [newText.id],
           selectedImageIds := [],
           selectedDrawingCanvasIds := [] }

/-- App.tsx `addDrawingCanvas`: creates a blank drawing canvas sized from the
current aspect ratio (base dimension 1024, other side rounded), centred in the
viewport, appends it to the layer order, makes it the sole selection, and sets
the tool to `select`. -/
def addDrawingCanvas (s : AppState) (genId : String) (clientW clientH : ℚ) :
    AppState :=
  let w := s.aspectRatio.w
  let h := s.aspectRatio.h
  let ratio := w / h
  let canvasWidth : ℚ := if ratio ≥ 1 then ((round ((1024 : ℚ) * ratio) : ℤ) : ℚ) else 1024
  let canvasHeight : ℚ := if ratio ≥ 1 then 1024 else ((round ((1024 : ℚ) / ratio) : ℤ) : ℚ)
  let newCanvas : DrawingObj DataUrl :=
    { id := genId,
      x := (-s.transform.x + clientW / 2) / s.transform.scale - canvasWidth / 2,
      y := (-s.transform.y + clientH / 2) / s.transform.scale - canvasHeight / 2,
      width := canvasWidth, height := canvasHeight,
      drawingSrc := none }
  { s with drawingCanvases := s.drawingCanvases ++ [newCanvas],
           layerOrder := s.layerOrder ++ [newCanvas.id],
           selectedDrawingCanvasIds := [newCanvas.id],
           selectedImageIds := [],
           selectedTextIds := [],
           activeTool := .select }

/-- App.tsx `deleteImages`: no-op on an empty id list; otherwise removes the
named images from `images` and from the layer order, and clears the image
selection set. -/
def deleteImages (s : AppState) (ids : List String) : AppState :=
  if ids = [] then s
  else
    { s with images := s.images.filter (fun img => img.id ∉ ids),
             layerOrder := s.layerOrder.filter (fun id => id ∉ ids),
             selectedImageIds := [] }

/-- App.tsx `deleteTextObjects`. -/
def deleteTextObjects (s : AppState) (ids : List String) : AppState :=
  if ids = [] then s
  else
    { s with textObjects := s.textObjects.filter (fun txt => txt.id ∉ ids),
             layerOrder := s.layerOrder.filter (fun id => id ∉ ids),
             selectedTextIds := [] }

/-- App.tsx `deleteDrawingCanvases`. -/
def deleteDrawingCanvases (s : AppState) (ids : List String) : AppState :=
  if ids = [] then s
  else
    { s with drawingCanvases := s.drawingCanvases.filter (fun c => c.id ∉ ids),
             layerOrder := s.layerOrder.filter (fun id => id ∉ ids),
             selectedDrawingCanvasIds := [] }

/-- Canvas.tsx Delete/Backspace handler (and the trash-drop /
`handleImageDragEnd` path): deletes everything currently selected, of all
three kinds, using the selection sets captured when the event fired. -/
def deleteSelectedObjects (s : AppState) : AppState :=
  let a := s.selectedImageIds
  let b := s.selectedTextIds
  let c := s.selectedDrawingCanvasIds
  deleteDrawingCanvases (deleteTextObjects (deleteImages s a) b) c

/-- Ids of the live images. -/
def imageIds (s : AppState) : List String := s.images.map (fun i => i.id)

/-- Ids of the live text objects. -/
def textIds (s : AppState) : List String := s.textObjects.map (fun t => t.id)

/-- Ids of the live drawing canvases. -/
def canvasIds (s : AppState) : List String := s.drawingCanvases.map (fun c => c.id)

/-- Ids of all live objects. -/
def liveIds (s : AppState) : List String := imageIds s ++ textIds s ++ canvasIds s

/-- One add/delete operation on the document, as invokable from the UI. -/
inductive DocOp where
  | addImage (imgSrc : DataUrl) (cls : ImageClassification) (opts : AddOpts)
      (genId : String) (naturalW naturalH clientW clientH : ℚ)
  | addText (x y : ℚ) (genId : String)
  | addCanvas (genId : String) (clientW clientH : ℚ)
  | deleteSelected
deriving Repr

/-- Apply one operation. -/
def stepOp (s : AppState) : DocOp → AppState
  | .addImage src cls opts genId nw nh cw ch =>
      addImageToCanvas s src cls opts genId nw nh cw ch
  | .addText x y genId => addTextToCanvas s x y genId
  | .addCanvas genId cw ch => addDrawingCanvas s genId cw ch
  | .deleteSelected => deleteSelectedObjects s

/-- Apply a sequence of operations. -/
def runOps (s : AppState) : List DocOp → AppState
  | [] => s
  | op :: ops => runOps (stepOp s op) ops

/-- The id the operation introduces, if any (for an add-image: `options.id`
if supplied, else the generated id — exactly the id the code uses). -/
def opNewId : DocOp → Option String
  | .addImage _ _ opts genId _ _ _ _ => some (opts.id.getD genId)
  | .addText _ _ genId => some genId
  | .addCanvas genId _ _ => some genId
  | .deleteSelected => none

/-- The freshness guarantee of `Date.now()`-generated ids: an add introduces
an id not currently live. -/
def freshOk (s : AppState) (op : DocOp) : Prop :=
  match opNewId op with
  | some id => id ∉ liveIds s
  | none => True

/-- A well-formed operation sequence: every add uses a fresh id at the state
where it executes. -/
def OpsWF : AppState → List DocOp → Prop
  | _, [] => True
  | s, op :: ops => freshOk s op ∧ OpsWF (stepOp s op) ops

/-- The document/selection invariant of the claim: no id is live twice, the
layer order holds exactly the live ids with no duplicates, and every id in
each of the three selection sets refers to a live object of that kind. -/
def Inv (s : AppState) : Prop :=
  (∀ id, (liveIds s).count id ≤ 1) ∧
  (∀ id, id ∈ s.layerOrder ↔ id ∈ liveIds s) ∧
  (∀ id, s.layerOrder.count id ≤ 1) ∧
  (∀ id ∈ s.selectedImageIds, id ∈ imageIds s) ∧
  (∀ id ∈ s.selectedTextIds, id ∈ textIds s) ∧
  (∀ id ∈ s.selectedDrawingCanvasIds, id ∈ canvasIds s)

/-- A selected editable item, as assembled in App.tsx `handleGenerateImage`:
a selected image keeps its `src` and `maskSrc`; a selected drawing canvas
contributes its `drawingSrc` as `src` and has no mask field. -/
structure EditItem where
  id : String
  x : ℚ
  width : ℚ
  height : ℚ
  src : Option DataUrl
  maskSrc : Option DataUrl
  isCanvas : Bool
deriving DecidableEq, Repr

/-- View a selected image as an editable item (`{...img, type: 'image'}`). -/
def imageToItem (img : ImageObj DataUrl) : EditItem :=
  { id := img.id, x := img.x, width := img.width, height := img.height,
    src := some img.src, maskSrc := img.maskSrc, isCanvas := false }

/-- View a selected drawing canvas as an editable item
(`{...canvas, src: canvas.drawingSrc, type: 'canvas'}`). -/
def canvasToItem (c : DrawingObj DataUrl) : EditItem :=
  { id := c.id, x := c.x, width := c.width, height := c.height,
    src := c.drawingSrc, maskSrc := none, isCanvas := true }

/-- Insertion step of a stable sort by ascending `x`: the new element goes
after every existing element whose `x` is not greater, exactly the stable
behaviour of `Array.prototype.sort((a, b) => a.x - b.x)` (stable per ES2019). -/
def insertByX (a : EditItem) : List EditItem → List EditItem
  | [] => [a]
  | b :: bs => if a.x < b.x then a :: b :: bs else b :: insertByX a bs

/-- Stable sort by ascending `x` (`sort((a, b) => a.x - b.x)`). -/
def sortByX : List EditItem → List EditItem
  | [] => []
  | a :: rest => insertByX a (sortByX rest)

/-- The same stable sort on bare `(id, x)` pairs, used by the badge map. -/
def insertPairByX (a : String × ℚ) : List (String × ℚ) → List (String × ℚ)
  | [] => [a]
  | b :: bs => if a.2 < b.2 then a :: b :: bs else b :: insertPairByX a bs

/-- Stable pair sort by ascending `x`. -/
def sortPairsByX : List (String × ℚ) → List (String × ℚ)
  | [] => []
  | a :: rest => insertPairByX a (sortPairsByX rest)

/-- `images.filter(img => selectedImageIds.includes(img.id))`. -/
def selectedImagesOf (s : AppState) : List (ImageObj DataUrl) :=
  s.images.filter (fun img => img.id ∈ s.selectedImageIds)

/-- `textObjects.filter(txt => selectedTextIds.includes(txt.id))`. -/
def selectedTextsOf (s : AppState) : List TextObj :=
  s.textObjects.filter (fun txt => txt.id ∈ s.selectedTextIds)

/-- `drawingCanvases.filter(canvas => selectedDrawingCanvasIds.includes(canvas.id))`. -/
def selectedCanvasesOf (s : AppState) : List (DrawingObj DataUrl) :=
  s.drawingCanvases.filter (fun c => c.id ∈ s.selectedDrawingCanvasIds)

/-- App.tsx `handleGenerateImage`: the packed reference list
`[...selectedImages, ...selectedCanvases].sort((a, b) => a.x - b.x)`. -/
def editableItemsOf (s : AppState) : List EditItem :=
  sortByX ((selectedImagesOf s).map imageToItem ++
    (selectedCanvasesOf s).map canvasToItem)

/-- App.tsx `handleGenerateImage`: single-item aspect-ratio match test — only
a one-element selection can match, and it matches iff
`|item.width/item.height − targetW/targetH| < 0.01`. -/
def isMatchingAspectRatio (items : List EditItem) (ar : AspectRatio) : Bool :=
  match items with
  | [item] => decide (|item.width / item.height - ar.w / ar.h| < 1/100)
  | _ => false

/-- The generation path chosen for the editable-items branch of
`handleGenerateImage`. -/
inductive GenPath where
  | noItems
  | oneStep (mask : Option DataUrl)
  | twoStep
deriving DecidableEq, Repr

/-- App.tsx `handleGenerateImage` path selection: no editable items →
text-to-image/entity branch; a single item with matching aspect ratio →
single-step edit carrying the item's mask (when present); otherwise →
two-step edit + pad + outpaint. -/
def genPath (items : List EditItem) (ar : AspectRatio) : GenPath :=
  if items.isEmpty then .noItems
  else if items.length = 1 ∧ isMatchingAspectRatio items ar then
    .oneStep (items.head?.bind (fun it => it.maskSrc))
  else .twoStep

/-- Canvas.tsx `selectionOrderMap` input: all selected objects of all three
kinds, as `(id, x)` pairs in images-texts-canvases concatenation order. -/
def allSelectedPairs (s : AppState) : List (String × ℚ) :=
  (selectedImagesOf s).map (fun i => (i.id, i.x)) ++
  (selectedTextsOf s).map (fun t => (t.id, t.x)) ++
  (selectedCanvasesOf s).map (fun c => (c.id, c.x))

/-- Canvas.tsx `selectionOrderMap`: empty when at most one object is
selected; otherwise the x-sorted selected objects paired with their 1-based
position (`map[item.id] = index + 1`, later entries overwriting earlier). -/
def selectionOrderPairs (s : AppState) : List (String × Nat) :=
  if s.selectedImageIds.length + s.selectedTextIds.length +
      s.selectedDrawingCanvasIds.length ≤ 1 then []
  else ((sortPairsByX (allSelectedPairs s)).enum).map (fun p => (p.2.1, p.1 + 1))

/-- JS object-map lookup with later assignments overwriting earlier ones,
plus the `|| 0` fallback of `selectionOrderMap[image.id] || 0`. -/
def lookupLastBadge (m : List (String × Nat)) (id : String) : Nat :=
  match (m.filter (fun p => p.1 = id)).getLast? with
  | some p => p.2
  | none => 0

/-- The selection-order badge shown on an object. -/
def selectionOrder (s : AppState) (id : String) : Nat :=
  lookupLastBadge (selectionOrderPairs s) id

/-- Byte-wise prefix test on character lists (needle, haystack). -/
def listStartsWith : List Char → List Char → Bool
  | [], _ => true
  | _ :: _, [] => false
  | a :: as, b :: bs => a == b && listStartsWith as bs

/-- JS `String.prototype.includes`: does `needle` occur contiguously in
`hay`? -/
def listContainsSub (hay needle : List Char) : Bool :=
  match hay with
  | [] => needle.isEmpty
  | c :: t => listStartsWith needle (c :: t) || listContainsSub t needle

/-- The structured failure the catch block of `handleGenerateImage` works
with: `cleanMessage` is the message after the best-effort JSON extraction
(steps 1–3 of the catch block), `parsed` the extracted `{code, status}`
error object when one was found, and `raw` the `JSON.stringify(error)`
string. -/
structure ParsedErr where
  code : Option Int := none
  status : Option String := none
deriving DecidableEq, Repr

/-- A provider failure as seen by the catch block. -/
structure GenError where
  cleanMessage : String
  parsed : Option ParsedErr := none
  raw : String := ""
deriving DecidableEq, Repr

/-- `cleanMessage.toLowerCase()` as a character list. -/
def msgLowerOf (e : GenError) : List Char :=
  e.cleanMessage.toList.map Char.toLower

/-- `JSON.stringify(error).toLowerCase()` as a character list. -/
def rawLowerOf (e : GenError) : List Char :=
  e.raw.toList.map Char.toLower

/-- `msgLower.includes(needle)`. -/
def inclMsg (e : GenError) (needle : String) : Bool :=
  listContainsSub (msgLowerOf e) needle.toList

/-- Safety/prohibited-content detection (the first early-return of the catch
block): `safety_block`, `blocked`, `prohibited`, or `recitation` in the
lower-cased message. -/
def isSafetyError (e : GenError) : Bool :=
  inclMsg e "safety_block" || inclMsg e "blocked" || inclMsg e "prohibited" ||
    inclMsg e "recitation"

/-- Client/payload-error detection (the second early-return): `400`,
`invalid_argument`, `payload`, or `too large` in the lower-cased message. -/
def isClientError (e : GenError) : Bool :=
  inclMsg e "400" || inclMsg e "invalid_argument" || inclMsg e "payload" ||
    inclMsg e "too large"

/-- 503/overload detection (`is503` in the source): parsed code 503 or
status `UNAVAILABLE`, or `503`/`overloaded`/`unavailable` in the message, or
`"code":503` in the stringified error. -/
def is503 (e : GenError) : Bool :=
  (match e.parsed with
   | some p => p.code == some 503 || p.status == some "UNAVAILABLE"
   | none => false) ||
  inclMsg e "503" || inclMsg e "overloaded" || inclMsg e "unavailable" ||
  listContainsSub (rawLowerOf e) ("\"code\":503").toList

/-- 429/quota detection (`is429` in the source): parsed code 429 or status
`RESOURCE_EXHAUSTED`, or `429`/`quota`/`resource_exhausted` in the message. -/
def is429 (e : GenError) : Bool :=
  (match e.parsed with
   | some p => p.code == some 429 || p.status == some "RESOURCE_EXHAUSTED"
   | none => false) ||
  inclMsg e "429" || inclMsg e "quota" || inclMsg e "resource_exhausted"

/-- `const maxRetries = 3`. -/
def maxRetries : Nat := 3

/-- The overload backoff: `Math.min(1000 * Math.pow(2, attempt - 1), 5000)`. -/
def overloadDelay (attempt : Nat) : Nat :=
  min (1000 * 2 ^ (attempt - 1)) 5000

/-- The per-class retry delay chosen when another attempt remains: overload
errors use the capped exponential backoff, quota errors a fixed 5000 ms,
anything else a fixed 2000 ms. -/
def retryDelay (e : GenError) (attempt : Nat) : Nat :=
  if is503 e then overloadDelay attempt
  else if is429 e then 5000
  else 2000

/-- User-facing message of the safety early-return. -/
def safetyBlockMessage : String :=
  "안전 정책 또는 금지된 콘텐츠로 인해 이미지가 차단되었습니다. 프롬프트를 수정해주세요."

/-- User-facing message of the client/payload early-return. -/
def clientErrorMessage : String :=
  "이미지 데이터가 너무 큽니다. 입력 이미지를 줄이거나 더 간단한 프롬프트로 시도해주세요."

/-- Terminal message after the last attempt, by error class. -/
def finalFailureMessage (overload quota : Bool) : String :=
  if overload then
    "Google 서버가 현재 매우 혼잡합니다 (503 Overloaded). 잠시 후 다시 시도해주세요."
  else if quota then
    "API 사용량이 초과되었습니다 (429 Quota Exceeded). 잠시 후 다시 시도하거나 다른 계정을 사용하세요."
  else
    "생성을 실패하였습니다. 문제가 지속되면 콘솔의 상세 에러를 확인하세요."

/-- What the catch block does with a failure. -/
inductive RetryAction where
  | terminate (msg : String)
  | retryAfter (delayMs : Nat)
deriving DecidableEq, Repr

/-- The catch block of `handleGenerateImage`, in source order: safety block →
terminate; client/payload error → terminate; another attempt remains → sleep
the classified delay and continue; otherwise → terminal failure message by
class. -/
def classifyAndAct (e : GenError) (attempt maxR : Nat) : RetryAction :=
  if isSafetyError e then .terminate safetyBlockMessage
  else if isClientError e then .terminate clientErrorMessage
  else if attempt < maxR then .retryAfter (retryDelay e attempt)
  else .terminate (finalFailureMessage (is503 e) (is429 e))

/-- Outcome of one attempt's external calls: the final composited image, or
the failure thrown somewhere before `addImageToCanvas` ran. -/
inductive EditOutcome where
  | ok (finalImage : DataUrl)
  | fail (e : GenError)
deriving DecidableEq, Repr

/-- `setImages(prev => prev.map(img => selectedImageIds.includes(img.id) ?
{...img, maskSrc: undefined} : img))` — the unconditional mask clearing of
the generation success tail. -/
def clearMasksOfSelected (sel : List String) (imgs : List (ImageObj DataUrl)) :
    List (ImageObj DataUrl) :=
  imgs.map (fun img =>
    if img.id ∈ sel then { img with maskSrc := none } else img)

/-- The mask clearing of `onBackgroundClick`, which additionally checks that
the image actually carries a mask (`img.maskSrc` truthy). -/
def clearMasksIfPresent (sel : List String) (imgs : List (ImageObj DataUrl)) :
    List (ImageObj DataUrl) :=
  imgs.map (fun img =>
    if img.id ∈ sel ∧ img.maskSrc ≠ none then { img with maskSrc := none } else img)

/-- Is this outcome a failure? -/
def EditOutcome.isFail : EditOutcome → Bool
  | .ok _ => false
  | .fail _ => true

/-- The success tail of the editable-items branch, in React dispatch order:
clear `maskSrc` on every previously-selected image, clear the image/canvas
selections, stop loading; then the decoded-image `onload` callback appends
the new `result` image (carrying the prompt and target aspect ratio), puts
it at the end of the layer order, makes it the sole selection, and resets
the tool to `select`. -/
def generationSuccess (s : AppState) (prompt : String) (finalImage : DataUrl)
    (genId : String) (naturalW naturalH clientW clientH : ℚ) : AppState :=
  let s₁ := { s with images := clearMasksOfSelected s.selectedImageIds s.images }
  let s₂ := { s₁ with selectedImageIds := [], selectedDrawingCanvasIds := [],
                      isLoading := false }
  addImageToCanvas s₂ finalImage .result
    { prompt := some prompt, targetAspectRatio := some s.aspectRatio }
    genId naturalW naturalH clientW clientH

/-- The retry loop of `handleGenerateImage` over the editable-items branch,
driven by the per-attempt outcomes of the external calls: a successful
attempt applies the success tail and exits; a failure is classified —
terminate updates only the error surface, retry recurses on the next
attempt. -/
def runGenerationAux (s : AppState) (prompt : String) (genId : String)
    (naturalW naturalH clientW clientH : ℚ) :
    Nat → List EditOutcome → AppState
  | _, [] => s
  | attempt, o :: os =>
    match o with
    | .ok finalImage =>
        generationSuccess s prompt finalImage genId naturalW naturalH clientW clientH
    | .fail e =>
      match classifyAndAct e attempt maxRetries with
      | .terminate msg => { s with errorMessage := some msg, isLoading := false }
      | .retryAfter _ =>
          runGenerationAux s prompt genId naturalW naturalH clientW clientH
            (attempt + 1) os

/-- The generation run starting at attempt 1. -/
def runGeneration (s : AppState) (prompt : String) (outcomes : List EditOutcome)
    (genId : String) (naturalW naturalH clientW clientH : ℚ) : AppState :=
  runGenerationAux s prompt genId naturalW naturalH clientW clientH 1 outcomes

/-- App.tsx `onBackgroundClick`: clear the paint mask of every selected
image that has one, clear all three selections, and drop back to the `pan`
tool when a drawing-context tool was active. -/
def onBackgroundClick (s : AppState) : AppState :=
  let s₁ :=
    if s.selectedImageIds ≠ [] then
      { s with images := clearMasksIfPresent s.selectedImageIds s.images }
    else s
  let s₂ := { s₁ with selectedImageIds := [], selectedTextIds := [],
                      selectedDrawingCanvasIds := [] }
  if s.activeTool = .text ∨ s.activeTool = .pen ∨ s.activeTool = .eraser
  then { s₂ with activeTool := .pan } else s₂

/-- A concrete overload failure: parsed `{code: 503}` with an "overloaded"
message. -/
def exampleErr503 : GenError :=
  { cleanMessage := "The model is overloaded. Please try again later.",
    parsed := some { code := some 503 } }

/-- A concrete quota failure. -/
def exampleErr429 : GenError :=
  { cleanMessage := "Quota exceeded for requests",
    parsed := some { code := some 429 } }

/-- A concrete safety block (`SAFETY_BLOCK: The request was blocked by
safety filters.`, thrown by geminiService). -/
def exampleErrSafety : GenError :=
  { cleanMessage := "SAFETY_BLOCK: The request was blocked by safety filters." }

/-- The archive-writing state threaded through `handleSaveProject`: the
assets written so far (asset path ↦ decoded bytes) and a fresh-name supply.
The real asset names are `<prefix>_<Date.now()>_<random>.<ext>`; their
uniqueness-by-construction is modelled by the strictly increasing counter
standing for the generated name. -/
structure SaveSt where
  counter : Nat
  assets : List (Nat × List Nat)
deriving DecidableEq, Repr

/-- App.tsx `addAsset`: parse the data URL (`parseDataUrl`, with the
octet-stream rewrite), generate a fresh asset name, store the decoded bytes
under it in the `assets/` folder, and return the name. -/
def addAsset (du : DataUrl) (st : SaveSt) : Nat × SaveSt :=
  let p := parseDataUrl du
  (st.counter,
   { counter := st.counter + 1, assets := st.assets ++ [(st.counter, p.bytes)] })

/-- Save an optional payload field: the JS guards (`if (img.modelSheetSrc)`
etc.) write an asset only for a present (truthy) payload. -/
def saveOptAsset (o : Option DataUrl) (st : SaveSt) : Option Nat × SaveSt :=
  match o with
  | none => (none, st)
  | some du =>
    let r := addAsset du st
    (some r.1, r.2)

/-- `img.poses.map(p => p ? addAsset(p, 'pose') : p)`. -/
def savePoseList : List (Option DataUrl) → SaveSt → List (Option Nat) × SaveSt
  | [], st => ([], st)
  | p :: ps, st =>
    let r₁ := saveOptAsset p st
    let r₂ := savePoseList ps r₁.2
    (r₁.1 :: r₂.1, r₂.2)

/-- One image of `handleSaveProject`'s `processedImages` map: every payload
field is replaced by its asset path, every other field is copied. -/
def saveImage (img : ImageObj DataUrl) (st : SaveSt) : ImageObj Nat × SaveSt :=
  let rsrc := addAsset img.src st
  let rms := saveOptAsset img.modelSheetSrc rsrc.2
  let rposes : Option (List (Option Nat)) × SaveSt :=
    match img.poses with
    | none => (none, rms.2)
    | some ps =>
      let r := savePoseList ps rms.2
      (some r.1, r.2)
  let rvid := saveOptAsset img.videoSrc rposes.2
  let rmask := saveOptAsset img.maskSrc rvid.2
  ({ id := img.id, src := rsrc.1, x := img.x, y := img.y,
     width := img.width, height := img.height,
     naturalWidth := img.naturalWidth, naturalHeight := img.naturalHeight,
     classification := img.classification, name := img.name,
     prompt := img.prompt, targetAspectRatio := img.targetAspectRatio,
     modelSheetSrc := rms.1, poses := rposes.1, videoSrc := rvid.1,
     maskSrc := rmask.1 }, rmask.2)

/-- `images.map(...)` of `handleSaveProject`, threading the asset store. -/
def saveImageList : List (ImageObj DataUrl) → SaveSt → List (ImageObj Nat) × SaveSt
  | [], st => ([], st)
  | img :: rest, st =>
    let r₁ := saveImage img st
    let r₂ := saveImageList rest r₁.2
    (r₁.1 :: r₂.1, r₂.2)

/-- One drawing canvas of `processedDrawings`. -/
def saveDrawing (c : DrawingObj DataUrl) (st : SaveSt) : DrawingObj Nat × SaveSt :=
  let r := saveOptAsset c.drawingSrc st
  ({ id := c.id, x := c.x, y := c.y, width := c.width, height := c.height,
     drawingSrc := r.1 }, r.2)

/-- `drawingCanvases.map(...)` of `handleSaveProject`. -/
def saveDrawingList : List (DrawingObj DataUrl) → SaveSt →
    List (DrawingObj Nat) × SaveSt
  | [], st => ([], st)
  | c :: rest, st =>
    let r₁ := saveDrawing c st
    let r₂ := saveDrawingList rest r₁.2
    (r₁.1 :: r₂.1, r₂.2)

/-- The `project.json` document (`projectData` in `handleSaveProject`):
object arrays with asset paths, plus layer order, aspect ratio, transform
and project name, version-tagged. -/
structure SavedProject where
  version : Nat
  projectName : String
  images : List (ImageObj Nat)
  textObjects : List TextObj
  drawingCanvases : List (DrawingObj Nat)
  layerOrder : List String
  aspectRatio : AspectRatio
  transform : CanvasTransform
deriving DecidableEq, Repr

/-- The `.story` zip archive: the optional `project.json` entry, the
`assets/` entries, and the download file name (`${projectName}.story`). -/
structure Archive where
  projectJson : Option SavedProject
  assets : List (Nat × List Nat)
  fileName : String
deriving DecidableEq, Repr

/-- App.tsx `handleSaveProject`: write every payload as an asset (images
first, then drawing canvases, in source order), then `project.json`, and
offer `${projectName}.story` for download. -/
def handleSaveProject (s : AppState) : Archive :=
  let r₁ := saveImageList s.images { counter := 0, assets := [] }
  let r₂ := saveDrawingList s.drawingCanvases r₁.2
  { projectJson := some
      { version := 1, projectName := s.projectName, images := r₁.1,
        textObjects := s.textObjects, drawingCanvases := r₂.1,
        layerOrder := s.layerOrder, aspectRatio := s.aspectRatio,
        transform := s.transform },
    assets := r₂.2.assets,
    fileName := s.projectName ++ ".story" }

/-- First-match association lookup in the archive's asset entries
(`zip.file(path)`). -/
def lookupAsset (k : Nat) : List (Nat × List Nat) → Option (List Nat)
  | [] => none
  | e :: t => if k = e.1 then some e.2 else lookupAsset k t

/-- `loadAsset` of `loadProjectFromFile`: read the named entry as a blob and
re-encode it as a data URL with `FileReader.readAsDataURL`; a missing entry
yields `""` (here: the empty payload).  `loadedMime` is whatever MIME tag
the browser attaches to the re-read blob — the decoded bytes are the stored
bytes either way. -/
def loadAsset (assets : List (Nat × List Nat)) (loadedMime : String)
    (p : Nat) : DataUrl :=
  match lookupAsset p assets with
  | some bs => { mimeType := loadedMime, bytes := bs }
  | none => { mimeType := loadedMime, bytes := [] }

/-- Restore one image: `src` unconditionally, each optional payload field
only when present (truthy), `poses` element-wise with `p ? loadAsset(p) : p`. -/
def loadImage (assets : List (Nat × List Nat)) (loadedMime : String)
    (img : ImageObj Nat) : ImageObj DataUrl :=
  { id := img.id, src := loadAsset assets loadedMime img.src,
    x := img.x, y := img.y, width := img.width, height := img.height,
    naturalWidth := img.naturalWidth, naturalHeight := img.naturalHeight,
    classification := img.classification, name := img.name,
    prompt := img.prompt, targetAspectRatio := img.targetAspectRatio,
    modelSheetSrc := img.modelSheetSrc.map (loadAsset assets loadedMime),
    poses := img.poses.map (fun ps => ps.map (Option.map (loadAsset assets loadedMime))),
    videoSrc := img.videoSrc.map (loadAsset assets loadedMime),
    maskSrc := img.maskSrc.map (loadAsset assets loadedMime) }

/-- Restore one drawing canvas (`if (canvas.drawingSrc) ...`). -/
def loadDrawing (assets : List (Nat × List Nat)) (loadedMime : String)
    (c : DrawingObj Nat) : DrawingObj DataUrl :=
  { id := c.id, x := c.x, y := c.y, width := c.width, height := c.height,
    drawingSrc := c.drawingSrc.map (loadAsset assets loadedMime) }

/-- The regex `file.name.replace(/\.[^/.]+$/, "")`: strip a trailing
`.<ext>` whose ext is nonempty and contains neither `.` nor `/`. -/
def stripExtension (s : String) : String :=
  let r := s.toList.reverse
  let seg := r.takeWhile (fun c => !(c == '.') && !(c == '/'))
  let rest := r.dropWhile (fun c => !(c == '.') && !(c == '/'))
  if seg ≠ [] ∧ rest.head? = some '.' then String.mk rest.tail.reverse else s

/-- App.tsx `loadProjectFromFile`: a missing `project.json` throws, the
catch leaves the state untouched and raises the load-failure alert (the
returned flag); otherwise the whole document is replaced — objects with
payloads resolved from the archive, layer order, aspect ratio, transform,
project name (falling back to the file name without extension when the
saved name is empty/falsy), and cleared selections. -/
def loadProjectFromFile (a : Archive) (loadedMime : String) (s : AppState) :
    AppState × Bool :=
  match a.projectJson with
  | none => (s, true)
  | some pd =>
    ({ s with
        images := pd.images.map (loadImage a.assets loadedMime),
        textObjects := pd.textObjects,
        drawingCanvases := pd.drawingCanvases.map (loadDrawing a.assets loadedMime),
        layerOrder := pd.layerOrder,
        aspectRatio := pd.aspectRatio,
        transform := pd.transform,
        projectName :=
          if pd.projectName ≠ "" then pd.projectName
          else stripExtension a.fileName,
        selectedImageIds := [],
        selectedTextIds := [],
        selectedDrawingCanvasIds := [] }, false)

/-- Byte-for-byte equality of decoded payloads (the MIME tag may differ
after a round trip; the decoded bytes may not). -/
def payloadEq (a b : DataUrl) : Prop := a.bytes = b.bytes

/-- `payloadEq` on optional payloads, requiring the same presence. -/
def optPayloadEq : Option DataUrl → Option DataUrl → Prop
  | none, none => True
  | some x, some y => payloadEq x y
  | _, _ => False

/-- Pose-slot lists match: same shape, byte-equal decoded payloads. -/
def posesEq : Option (List (Option DataUrl)) → Option (List (Option DataUrl)) → Prop
  | none, none => True
  | some xs, some ys => List.Forall₂ optPayloadEq xs ys
  | _, _ => False

/-- Object-for-object image equality modulo re-encoded MIME tags: every
plain field equal, every payload field byte-for-byte equal with the same
presence. -/
def imageMatches (a b : ImageObj DataUrl) : Prop :=
  a.id = b.id ∧ a.x = b.x ∧ a.y = b.y ∧ a.width = b.width ∧
  a.height = b.height ∧ a.naturalWidth = b.naturalWidth ∧
  a.naturalHeight = b.naturalHeight ∧ a.classification = b.classification ∧
  a.name = b.name ∧ a.prompt = b.prompt ∧
  a.targetAspectRatio = b.targetAspectRatio ∧
  payloadEq a.src b.src ∧ optPayloadEq a.modelSheetSrc b.modelSheetSrc ∧
  posesEq a.poses b.poses ∧ optPayloadEq a.videoSrc b.videoSrc ∧
  optPayloadEq a.maskSrc b.maskSrc

/-- Object-for-object drawing-canvas equality modulo re-encoded MIME tags. -/
def drawingMatches (a b : DrawingObj DataUrl) : Prop :=
  a.id = b.id ∧ a.x = b.x ∧ a.y = b.y ∧ a.width = b.width ∧
  a.height = b.height ∧ optPayloadEq a.drawingSrc b.drawingSrc

/-- Save-state well-formedness: asset keys strictly increase and stay below
the counter. -/
def GoodSt (st : SaveSt) : Prop :=
  (st.assets.map Prod.fst).Pairwise (· < ·) ∧
  ∀ k ∈ st.assets.map Prod.fst, k < st.counter

/-- Asset-store growth: every entry written so far stays in the store. -/
def SubSt (st st' : SaveSt) : Prop :=
  ∀ e ∈ st.assets, e ∈ st'.assets

/-- The initial application state (App.tsx `useState` initializers): empty
document, `pan` tool, transform `{x:0, y:0, scale:0.2}`, aspect ratio `9:16`,
project name `Untitled Story`. -/
def initialState : AppState :=
  { images := [], textObjects := [], drawingCanvases := [],
    layerOrder := [],
    selectedImageIds := [], selectedTextIds := [], selectedDrawingCanvasIds := [],
    activeTool := .pan,
    transform := { x := 0, y := 0, scale := 1/5 },
    aspectRatio := .r9x16,
    projectName := "Untitled Story" }

/-- A small concrete payload used by concrete instances. -/
def examplePayload : DataUrl := { mimeType := "image/png", bytes := [1, 2, 3] }

/-- A concrete image object at a given x position. -/
def exampleImage (n : String) (xv : ℚ) : ImageObj DataUrl :=
  { id := n, src := examplePayload, x := xv, y := 0, width := 100, height := 100,
    naturalWidth := 100, naturalHeight := 100, classification := .original }

/-- A concrete state with three selected images at x = 50, 10, 30 (the
spec's reference-packing example). -/
def exampleSelState : AppState :=
  { initialState with
    images := [exampleImage "a" 50, exampleImage "b" 10, exampleImage "c" 30],
    layerOrder := ["a", "b", "c"],
    selectedImageIds := ["a", "b", "c"] }

/-- A concrete malformed archive: no `project.json` entry. -/
def exampleBadArchive : Archive :=
  { projectJson := none, assets := [], fileName := "broken.story" }

/-- A concrete state with a single selected image carrying a paint mask. -/
def exampleMaskState : AppState :=
  { initialState with
    images := [{ exampleImage "a" 0 with maskSrc := some examplePayload }],
    layerOrder := ["a"],
    selectedImageIds := ["a"] }

/-- A concrete editable item of width 900 and height 1600 (the spec's
aspect-ratio example). -/
def exampleItem916 : EditItem :=
  { id := "m", x := 0, width := 900, height := 1600,
    src := some examplePayload, maskSrc := none, isCanvas := false }

/-- A concrete two-operation script: upload one image, then delete the
selection. -/
def exampleOps : List DocOp :=
  [ DocOp.addImage examplePayload .original {} "img_1" 100 200 800 600,
    DocOp.deleteSelected ]

end StoryMaker

namespace StoryMaker

theorem moveToFront_getLast (id : String) (l : List String) :
    (handleMoveToFront id l).getLast? = some id := by
  unfold handleMoveToFront
  by_cases h : l.getLast? = some id
  · simp [h]
  · simp [h, List.getLast?_append]

theorem moveToFront_of_getLast {id : String} {l : List String}
    (h : l.getLast? = some id) : handleMoveToFront id l = l := by
  unfold handleMoveToFront
  rw [if_pos h]

end StoryMaker

/-- C7: `reorderToFront(id)` applied twice in a row yields the same layer
order as applying it once — move-to-front is idempotent (App.tsx
`handleMoveToFront`). -/
theorem C7_moveToFront_idempotent (id : String) (l : List String) :
    StoryMaker.handleMoveToFront id (StoryMaker.handleMoveToFront id l) =
      StoryMaker.handleMoveToFront id l :=
  StoryMaker.moveToFront_of_getLast (StoryMaker.moveToFront_getLast id l)

/-- C1: anchored zoom (`handleWheel`) clamps the new scale to `[0.1, 5]`,
computes the new origin as `P - (P - origin) * (newScale / oldScale)`, and
keeps the canvas point under the cursor screen-invariant:
`screenToCanvas(P, T') = screenToCanvas(P, T)` (exact over ℚ, hence within any
floating-point tolerance). -/
theorem C1_zoom_cursor_invariant (t : StoryMaker.CanvasTransform)
    (px py delta : ℚ) (hlo : 1/10 ≤ t.scale) (hhi : t.scale ≤ 5) :
    (StoryMaker.handleWheel t px py delta).scale
        = min (max (1/10) (t.scale + delta)) 5 ∧
    (StoryMaker.handleWheel t px py delta).x
        = px - (px - t.x) * ((StoryMaker.handleWheel t px py delta).scale / t.scale) ∧
    (StoryMaker.handleWheel t px py delta).y
        = py - (py - t.y) * ((StoryMaker.handleWheel t px py delta).scale / t.scale) ∧
    StoryMaker.screenToCanvas px py (StoryMaker.handleWheel t px py delta)
        = StoryMaker.screenToCanvas px py t := by
  have hs : t.scale ≠ 0 := by positivity
  have hns : min (max (1/10 : ℚ) (t.scale + delta)) 5 ≠ 0 := by
    have h1 : (1/10 : ℚ) ≤ min (max (1/10 : ℚ) (t.scale + delta)) 5 := by
      refine le_min (le_max_left _ _) (by norm_num)
    positivity
  refine ⟨rfl, rfl, rfl, ?_⟩
  unfold StoryMaker.handleWheel StoryMaker.screenToCanvas
  simp only [Prod.mk.injEq]
  constructor
  · field_simp
    ring
  · field_simp
    ring

/-- Witness for C1 at a concrete input: transform `{x:=2, y:=3, scale:=1}`,
screen point `(7, 11)`, wheel delta `1/2`. -/
theorem C1_zoom_cursor_invariant_witness :
    ((1:ℚ)/10 ≤ 1 ∧ (1:ℚ) ≤ 5) ∧
    ((StoryMaker.handleWheel ⟨2, 3, 1⟩ 7 11 (1/2)).scale
        = min (max (1/10) ((1 : ℚ) + 1/2)) 5 ∧
    (StoryMaker.handleWheel ⟨2, 3, 1⟩ 7 11 (1/2)).x
        = 7 - (7 - 2) * ((StoryMaker.handleWheel ⟨2, 3, 1⟩ 7 11 (1/2)).scale / 1) ∧
    (StoryMaker.handleWheel ⟨2, 3, 1⟩ 7 11 (1/2)).y
        = 11 - (11 - 3) * ((StoryMaker.handleWheel ⟨2, 3, 1⟩ 7 11 (1/2)).scale / 1) ∧
    StoryMaker.screenToCanvas 7 11 (StoryMaker.handleWheel ⟨2, 3, 1⟩ 7 11 (1/2))
        = StoryMaker.screenToCanvas 7 11 ⟨2, 3, 1⟩) :=
  ⟨⟨by norm_num, by norm_num⟩,
    C1_zoom_cursor_invariant ⟨2, 3, 1⟩ 7 11 (1/2) (by norm_num) (by norm_num)⟩

/-- C10: any pointer-down selection of an object (Canvas.tsx
`handleNodeSelect`) also relocates the object's id to the end of the layer
order via `onMoveToFront` — whatever the tool, the shift key, or the prior
selection, the resulting layer order is `handleMoveToFront id` of the old one
and ends in `id`. -/
theorem C10_select_moves_to_front (shiftKey : Bool) (id : String)
    (ty : StoryMaker.NodeType) (s : StoryMaker.AppState) :
    (StoryMaker.handleNodeSelect shiftKey id ty s).layerOrder
        = StoryMaker.handleMoveToFront id s.layerOrder ∧
    (StoryMaker.handleNodeSelect shiftKey id ty s).layerOrder.getLast?
        = some id := by
  have hlast := StoryMaker.moveToFront_getLast id s.layerOrder
  have h : (StoryMaker.handleNodeSelect shiftKey id ty s).layerOrder
      = StoryMaker.handleMoveToFront id s.layerOrder := by
    unfold StoryMaker.handleNodeSelect
    dsimp only
    repeat' split
    all_goals rfl
  exact ⟨h, h ▸ hlast⟩

namespace StoryMaker

theorem map_filter_pred {α : Type} (f : α → String) (ids : List String) (l : List α) :
    (l.filter (fun a => f a ∉ ids)).map f = (l.map f).filter (fun x => x ∉ ids) := by
  induction l with
  | nil => simp
  | cons a t ih =>
    simp only [decide_not] at ih ⊢
    by_cases h : f a ∈ ids <;> simp [h, ih]

theorem Inv_of_add (s s' : AppState) (n : String)
    (hlive : (liveIds s').Perm (n :: liveIds s))
    (hlayer : s'.layerOrder = s.layerOrder ++ [n])
    (hfresh : n ∉ liveIds s)
    (hselI : ∀ id ∈ s'.selectedImageIds, id ∈ imageIds s')
    (hselT : ∀ id ∈ s'.selectedTextIds, id ∈ textIds s')
    (hselC : ∀ id ∈ s'.selectedDrawingCanvasIds, id ∈ canvasIds s')
    (hInv : Inv s) : Inv s' := by
  obtain ⟨h1, h2, h3, _, _, _⟩ := hInv
  have hnl : n ∉ s.layerOrder := fun h => hfresh ((h2 n).1 h)
  refine ⟨?_, ?_, ?_, hselI, hselT, hselC⟩
  · intro id
    rw [hlive.count_eq, List.count_cons]
    by_cases hid : n = id
    · subst hid
      have : (liveIds s).count n = 0 := List.count_eq_zero_of_not_mem hfresh
      simp [this]
    · simp [hid, h1 id]
  · intro id
    rw [hlayer, hlive.mem_iff]
    simp [List.mem_append, h2 id, or_comm]
  · intro id
    rw [hlayer, List.count_append]
    by_cases hid : id = n
    · subst hid
      have : s.layerOrder.count id = 0 := List.count_eq_zero_of_not_mem hnl
      simp [this, List.count_singleton]
    · have hn0 : List.count id [n] = 0 := by
        rw [List.count_singleton]
        simp only [beq_iff_eq, ite_eq_right_iff]
        exact fun h => absurd h.symm hid
      have := h3 id
      omega

end StoryMaker

namespace StoryMaker

theorem append_singleton_perm_cons {α : Type} (A B C : List α) (n : α) :
    (A ++ [n] ++ B ++ C).Perm (n :: (A ++ B ++ C)) := by
  have h : A ++ [n] ++ B ++ C = A ++ (n :: (B ++ C)) := by simp
  rw [h, List.append_assoc A B C]
  exact List.perm_middle

theorem middle_singleton_perm_cons {α : Type} (A B C : List α) (n : α) :
    (A ++ (B ++ [n]) ++ C).Perm (n :: (A ++ B ++ C)) := by
  have h : A ++ (B ++ [n]) ++ C = (A ++ B) ++ (n :: C) := by simp
  rw [h]
  exact List.perm_middle

theorem last_singleton_perm_cons {α : Type} (A B C : List α) (n : α) :
    (A ++ B ++ (C ++ [n])).Perm (n :: (A ++ B ++ C)) := by
  have h : A ++ B ++ (C ++ [n]) = (A ++ B ++ C) ++ [n] := by simp
  rw [h]
  exact List.perm_append_singleton n (A ++ B ++ C)

theorem Inv_addImage (s : AppState) (src : DataUrl) (cls : ImageClassification)
    (opts : AddOpts) (genId : String) (nw nh cw ch : ℚ)
    (hInv : Inv s) (hfresh : opts.id.getD genId ∉ liveIds s) :
    Inv (addImageToCanvas s src cls opts genId nw nh cw ch) := by
  apply Inv_of_add s _ (opts.id.getD genId) ?_ ?_ hfresh ?_ ?_ ?_ hInv
  · show (liveIds _).Perm _
    simp only [liveIds, imageIds, textIds, canvasIds, addImageToCanvas,
      List.map_append, List.map_cons, List.map_nil]
    exact append_singleton_perm_cons _ _ _ _
  · simp [addImageToCanvas]
  · intro id hid
    simp only [addImageToCanvas] at hid
    simp only [List.mem_singleton] at hid
    subst hid
    simp [imageIds, addImageToCanvas]
  · intro id hid
    simp [addImageToCanvas] at hid
  · intro id hid
    simp [addImageToCanvas] at hid

theorem Inv_addText (s : AppState) (x y : ℚ) (genId : String)
    (hInv : Inv s) (hfresh : genId ∉ liveIds s) :
    Inv (addTextToCanvas s x y genId) := by
  apply Inv_of_add s _ genId ?_ ?_ hfresh ?_ ?_ ?_ hInv
  · show (liveIds _).Perm _
    simp only [liveIds, imageIds, textIds, canvasIds, addTextToCanvas,
      List.map_append, List.map_cons, List.map_nil]
    exact middle_singleton_perm_cons _ _ _ _
  · simp [addTextToCanvas]
  · intro id hid
    simp [addTextToCanvas] at hid
  · intro id hid
    simp only [addTextToCanvas] at hid
    simp only [List.mem_singleton] at hid
    subst hid
    simp [textIds, addTextToCanvas]
  · intro id hid
    simp [addTextToCanvas] at hid

theorem Inv_addCanvas (s : AppState) (genId : String) (cw ch : ℚ)
    (hInv : Inv s) (hfresh : genId ∉ liveIds s) :
    Inv (addDrawingCanvas s genId cw ch) := by
  apply Inv_of_add s _ genId ?_ ?_ hfresh ?_ ?_ ?_ hInv
  · show (liveIds _).Perm _
    simp only [liveIds, imageIds, textIds, canvasIds, addDrawingCanvas,
      List.map_append, List.map_cons, List.map_nil]
    exact last_singleton_perm_cons _ _ _ _
  · simp [addDrawingCanvas]
  · intro id hid
    simp [addDrawingCanvas] at hid
  · intro id hid
    simp [addDrawingCanvas] at hid
  · intro id hid
    simp only [addDrawingCanvas] at hid
    simp only [List.mem_singleton] at hid
    subst hid
    simp [canvasIds, addDrawingCanvas]

end StoryMaker

namespace StoryMaker

theorem live_count_disjoint_it (s : AppState) (h1 : ∀ id, (liveIds s).count id ≤ 1)
    (id : String) (hA : id ∈ imageIds s) (hB : id ∈ textIds s) : False := by
  have h := h1 id
  rw [liveIds, List.count_append, List.count_append] at h
  have c1 : 1 ≤ (imageIds s).count id := List.one_le_count_iff.mpr hA
  have c2 : 1 ≤ (textIds s).count id := List.one_le_count_iff.mpr hB
  omega

theorem live_count_disjoint_ic (s : AppState) (h1 : ∀ id, (liveIds s).count id ≤ 1)
    (id : String) (hA : id ∈ imageIds s) (hC : id ∈ canvasIds s) : False := by
  have h := h1 id
  rw [liveIds, List.count_append, List.count_append] at h
  have c1 : 1 ≤ (imageIds s).count id := List.one_le_count_iff.mpr hA
  have c2 : 1 ≤ (canvasIds s).count id := List.one_le_count_iff.mpr hC
  omega

theorem live_count_disjoint_tc (s : AppState) (h1 : ∀ id, (liveIds s).count id ≤ 1)
    (id : String) (hB : id ∈ textIds s) (hC : id ∈ canvasIds s) : False := by
  have h := h1 id
  rw [liveIds, List.count_append, List.count_append] at h
  have c1 : 1 ≤ (textIds s).count id := List.one_le_count_iff.mpr hB
  have c2 : 1 ≤ (canvasIds s).count id := List.one_le_count_iff.mpr hC
  omega

theorem Inv_deleteImages (s : AppState) (ids : List String)
    (hids : ∀ id ∈ ids, id ∈ imageIds s) (hInv : Inv s) :
    Inv (deleteImages s ids) := by
  obtain ⟨h1, h2, h3, h4, h5, h6⟩ := hInv
  by_cases hemp : ids = []
  · unfold deleteImages
    rw [if_pos hemp]
    exact ⟨h1, h2, h3, h4, h5, h6⟩
  · unfold deleteImages
    rw [if_neg hemp]
    have himg : imageIds { s with
        images := s.images.filter (fun img => img.id ∉ ids),
        layerOrder := s.layerOrder.filter (fun id => id ∉ ids),
        selectedImageIds := [] }
        = (imageIds s).filter (fun x => x ∉ ids) := by
      simp only [imageIds]
      exact map_filter_pred (fun i => i.id) ids s.images
    have hsub : List.Sublist ((imageIds s).filter (fun x => x ∉ ids)) (imageIds s) :=
      List.filter_sublist _
    refine ⟨?_, ?_, ?_, ?_, ?_, ?_⟩
    · intro id
      have hle : (liveIds { s with
          images := s.images.filter (fun img => img.id ∉ ids),
          layerOrder := s.layerOrder.filter (fun id => id ∉ ids),
          selectedImageIds := [] }).count id ≤ (liveIds s).count id := by
        apply List.Sublist.count_le
        rw [liveIds, liveIds, himg]
        exact ((hsub.append (List.Sublist.refl _)).append (List.Sublist.refl _))
      exact le_trans hle (h1 id)
    · intro id
      have hBnot : id ∈ textIds s → id ∉ ids := fun hB hin =>
        live_count_disjoint_it s h1 id (hids id hin) hB
      have hCnot : id ∈ canvasIds s → id ∉ ids := fun hC hin =>
        live_count_disjoint_ic s h1 id (hids id hin) hC
      have hl2 := h2 id
      rw [liveIds, List.mem_append, List.mem_append] at hl2
      show id ∈ s.layerOrder.filter (fun id => id ∉ ids) ↔ _
      rw [liveIds, List.mem_append, List.mem_append, himg]
      simp only [List.mem_filter, decide_not, Bool.not_eq_eq_eq_not, Bool.not_true,
        decide_eq_false_iff_not, textIds, canvasIds] at *
      tauto
    · intro id
      exact le_trans (List.Sublist.count_le (List.filter_sublist _) id) (h3 id)
    · intro id hid
      simp at hid
    · intro id hid
      exact h5 id hid
    · intro id hid
      exact h6 id hid

end StoryMaker

namespace StoryMaker

theorem Inv_deleteTextObjects (s : AppState) (ids : List String)
    (hids : ∀ id ∈ ids, id ∈ textIds s) (hInv : Inv s) :
    Inv (deleteTextObjects s ids) := by
  obtain ⟨h1, h2, h3, h4, h5, h6⟩ := hInv
  by_cases hemp : ids = []
  · unfold deleteTextObjects
    rw [if_pos hemp]
    exact ⟨h1, h2, h3, h4, h5, h6⟩
  · unfold deleteTextObjects
    rw [if_neg hemp]
    have htxt : textIds { s with
        textObjects := s.textObjects.filter (fun txt => txt.id ∉ ids),
        layerOrder := s.layerOrder.filter (fun id => id ∉ ids),
        selectedTextIds := [] }
        = (textIds s).filter (fun x => x ∉ ids) := by
      simp only [textIds]
      exact map_filter_pred (fun t => t.id) ids s.textObjects
    have hsub : List.Sublist ((textIds s).filter (fun x => x ∉ ids)) (textIds s) :=
      List.filter_sublist _
    refine ⟨?_, ?_, ?_, ?_, ?_, ?_⟩
    · intro id
      have hle : (liveIds { s with
          textObjects := s.textObjects.filter (fun txt => txt.id ∉ ids),
          layerOrder := s.layerOrder.filter (fun id => id ∉ ids),
          selectedTextIds := [] }).count id ≤ (liveIds s).count id := by
        apply List.Sublist.count_le
        rw [liveIds, liveIds, htxt]
        exact (((List.Sublist.refl _).append hsub).append (List.Sublist.refl _))
      exact le_trans hle (h1 id)
    · intro id
      have hAnot : id ∈ imageIds s → id ∉ ids := fun hA hin =>
        live_count_disjoint_it s h1 id hA (hids id hin)
      have hCnot : id ∈ canvasIds s → id ∉ ids := fun hC hin =>
        live_count_disjoint_tc s h1 id (hids id hin) hC
      have hl2 := h2 id
      rw [liveIds, List.mem_append, List.mem_append] at hl2
      show id ∈ s.layerOrder.filter (fun id => id ∉ ids) ↔ _
      rw [liveIds, List.mem_append, List.mem_append, htxt]
      simp only [List.mem_filter, decide_not, Bool.not_eq_eq_eq_not, Bool.not_true,
        decide_eq_false_iff_not, imageIds, canvasIds] at *
      tauto
    · intro id
      exact le_trans (List.Sublist.count_le (List.filter_sublist _) id) (h3 id)
    · intro id hid
      exact h4 id hid
    · intro id hid
      simp at hid
    · intro id hid
      exact h6 id hid

theorem Inv_deleteDrawingCanvases (s : AppState) (ids : List String)
    (hids : ∀ id ∈ ids, id ∈ canvasIds s) (hInv : Inv s) :
    Inv (deleteDrawingCanvases s ids) := by
  obtain ⟨h1, h2, h3, h4, h5, h6⟩ := hInv
  by_cases hemp : ids = []
  · unfold deleteDrawingCanvases
    rw [if_pos hemp]
    exact ⟨h1, h2, h3, h4, h5, h6⟩
  · unfold deleteDrawingCanvases
    rw [if_neg hemp]
    have hcan : canvasIds { s with
        drawingCanvases := s.drawingCanvases.filter (fun c => c.id ∉ ids),
        layerOrder := s.layerOrder.filter (fun id => id ∉ ids),
        selectedDrawingCanvasIds := [] }
        = (canvasIds s).filter (fun x => x ∉ ids) := by
      simp only [canvasIds]
      exact map_filter_pred (fun c => c.id) ids s.drawingCanvases
    have hsub : List.Sublist ((canvasIds s).filter (fun x => x ∉ ids)) (canvasIds s) :=
      List.filter_sublist _
    refine ⟨?_, ?_, ?_, ?_, ?_, ?_⟩
    · intro id
      have hle : (liveIds { s with
          drawingCanvases := s.drawingCanvases.filter (fun c => c.id ∉ ids),
          layerOrder := s.layerOrder.filter (fun id => id ∉ ids),
          selectedDrawingCanvasIds := [] }).count id ≤ (liveIds s).count id := by
        apply List.Sublist.count_le
        rw [liveIds, liveIds, hcan]
        exact (((List.Sublist.refl _).append (List.Sublist.refl _)).append hsub)
      exact le_trans hle (h1 id)
    · intro id
      have hAnot : id ∈ imageIds s → id ∉ ids := fun hA hin =>
        live_count_disjoint_ic s h1 id hA (hids id hin)
      have hBnot : id ∈ textIds s → id ∉ ids := fun hB hin =>
        live_count_disjoint_tc s h1 id hB (hids id hin)
      have hl2 := h2 id
      rw [liveIds, List.mem_append, List.mem_append] at hl2
      show id ∈ s.layerOrder.filter (fun id => id ∉ ids) ↔ _
      rw [liveIds, List.mem_append, List.mem_append, hcan]
      simp only [List.mem_filter, decide_not, Bool.not_eq_eq_eq_not, Bool.not_true,
        decide_eq_false_iff_not, imageIds, textIds] at *
      tauto
    · intro id
      exact le_trans (List.Sublist.count_le (List.filter_sublist _) id) (h3 id)
    · intro id hid
      exact h4 id hid
    · intro id hid
      exact h5 id hid
    · intro id hid
      simp at hid

end StoryMaker

namespace StoryMaker

theorem deleteImages_textIds (s : AppState) (ids : List String) :
    textIds (deleteImages s ids) = textIds s := by
  unfold deleteImages
  split <;> rfl

theorem deleteImages_canvasIds (s : AppState) (ids : List String) :
    canvasIds (deleteImages s ids) = canvasIds s := by
  unfold deleteImages
  split <;> rfl

theorem deleteTextObjects_canvasIds (s : AppState) (ids : List String) :
    canvasIds (deleteTextObjects s ids) = canvasIds s := by
  unfold deleteTextObjects
  split <;> rfl

theorem deleteImages_layer_sublist (s : AppState) (ids : List String) :
    List.Sublist (deleteImages s ids).layerOrder s.layerOrder := by
  unfold deleteImages
  split
  · exact List.Sublist.refl _
  · exact List.filter_sublist _

theorem deleteTextObjects_layer_sublist (s : AppState) (ids : List String) :
    List.Sublist (deleteTextObjects s ids).layerOrder s.layerOrder := by
  unfold deleteTextObjects
  split
  · exact List.Sublist.refl _
  · exact List.filter_sublist _

theorem deleteDrawingCanvases_layer_sublist (s : AppState) (ids : List String) :
    List.Sublist (deleteDrawingCanvases s ids).layerOrder s.layerOrder := by
  unfold deleteDrawingCanvases
  split
  · exact List.Sublist.refl _
  · exact List.filter_sublist _

theorem Inv_deleteSelected (s : AppState) (hInv : Inv s) :
    Inv (deleteSelectedObjects s) := by
  have h4 := hInv.2.2.2.1
  have h5 := hInv.2.2.2.2.1
  have h6 := hInv.2.2.2.2.2
  show Inv (deleteDrawingCanvases
    (deleteTextObjects (deleteImages s s.selectedImageIds) s.selectedTextIds)
    s.selectedDrawingCanvasIds)
  have hInv1 : Inv (deleteImages s s.selectedImageIds) :=
    Inv_deleteImages s _ h4 hInv
  have hsel2 : ∀ id ∈ s.selectedTextIds,
      id ∈ textIds (deleteImages s s.selectedImageIds) := by
    rw [deleteImages_textIds]
    exact h5
  have hInv2 : Inv (deleteTextObjects (deleteImages s s.selectedImageIds)
      s.selectedTextIds) :=
    Inv_deleteTextObjects _ _ hsel2 hInv1
  have hsel3 : ∀ id ∈ s.selectedDrawingCanvasIds,
      id ∈ canvasIds (deleteTextObjects (deleteImages s s.selectedImageIds)
        s.selectedTextIds) := by
    rw [deleteTextObjects_canvasIds, deleteImages_canvasIds]
    exact h6
  exact Inv_deleteDrawingCanvases _ _ hsel3 hInv2

theorem Inv_stepOp (s : AppState) (op : DocOp) (hInv : Inv s)
    (hf : freshOk s op) : Inv (stepOp s op) := by
  cases op with
  | addImage src cls opts genId nw nh cw ch =>
    exact Inv_addImage s src cls opts genId nw nh cw ch hInv hf
  | addText x y genId =>
    exact Inv_addText s x y genId hInv hf
  | addCanvas genId cw ch =>
    exact Inv_addCanvas s genId cw ch hInv hf
  | deleteSelected =>
    exact Inv_deleteSelected s hInv

theorem Inv_runOps (ops : List DocOp) : ∀ s : AppState, Inv s → OpsWF s ops →
    Inv (runOps s ops) := by
  induction ops with
  | nil =>
    intro s hInv _
    exact hInv
  | cons op rest ih =>
    intro s hInv hwf
    exact ih (stepOp s op) (Inv_stepOp s op hInv hwf.1) hwf.2

theorem deleteSelected_selections (s : AppState) :
    (deleteSelectedObjects s).selectedImageIds = [] ∧
    (deleteSelectedObjects s).selectedTextIds = [] ∧
    (deleteSelectedObjects s).selectedDrawingCanvasIds = [] := by
  unfold deleteSelectedObjects deleteDrawingCanvases deleteTextObjects deleteImages
  by_cases ha : s.selectedImageIds = [] <;>
    by_cases hb : s.selectedTextIds = [] <;>
      by_cases hc : s.selectedDrawingCanvasIds = [] <;>
        simp [ha, hb, hc]

theorem deleteSelected_count_zero (s : AppState) (id : String)
    (hid : id ∈ s.selectedImageIds ∨ id ∈ s.selectedTextIds ∨
      id ∈ s.selectedDrawingCanvasIds) :
    (deleteSelectedObjects s).layerOrder.count id = 0 := by
  show (deleteDrawingCanvases
    (deleteTextObjects (deleteImages s s.selectedImageIds) s.selectedTextIds)
    s.selectedDrawingCanvasIds).layerOrder.count id = 0
  rcases hid with h | h | h
  · have ha : s.selectedImageIds ≠ [] := List.ne_nil_of_mem h
    have h1 : (deleteImages s s.selectedImageIds).layerOrder.count id = 0 := by
      unfold deleteImages
      rw [if_neg ha]
      apply List.count_eq_zero_of_not_mem
      simp only [List.mem_filter, decide_not, Bool.not_eq_eq_eq_not, Bool.not_true,
        decide_eq_false_iff_not]
      exact fun hm => hm.2 h
    have h2 := List.Sublist.count_le (deleteTextObjects_layer_sublist
      (deleteImages s s.selectedImageIds) s.selectedTextIds) id
    have h3 := List.Sublist.count_le (deleteDrawingCanvases_layer_sublist
      (deleteTextObjects (deleteImages s s.selectedImageIds) s.selectedTextIds)
      s.selectedDrawingCanvasIds) id
    omega
  · have hb : s.selectedTextIds ≠ [] := List.ne_nil_of_mem h
    have h1 : (deleteTextObjects (deleteImages s s.selectedImageIds)
        s.selectedTextIds).layerOrder.count id = 0 := by
      unfold deleteTextObjects
      rw [if_neg hb]
      apply List.count_eq_zero_of_not_mem
      simp only [List.mem_filter, decide_not, Bool.not_eq_eq_eq_not, Bool.not_true,
        decide_eq_false_iff_not]
      exact fun hm => hm.2 h
    have h3 := List.Sublist.count_le (deleteDrawingCanvases_layer_sublist
      (deleteTextObjects (deleteImages s s.selectedImageIds) s.selectedTextIds)
      s.selectedDrawingCanvasIds) id
    omega
  · have hc : s.selectedDrawingCanvasIds ≠ [] := List.ne_nil_of_mem h
    unfold deleteDrawingCanvases
    rw [if_neg hc]
    apply List.count_eq_zero_of_not_mem
    simp only [List.mem_filter, decide_not, Bool.not_eq_eq_eq_not, Bool.not_true,
      decide_eq_false_iff_not]
    exact fun hm => hm.2 h

theorem count_one_of_selected (s : AppState) (hInv : Inv s) (id : String)
    (hid : id ∈ s.selectedImageIds ∨ id ∈ s.selectedTextIds ∨
      id ∈ s.selectedDrawingCanvasIds) :
    s.layerOrder.count id = 1 := by
  obtain ⟨_, h2, h3, h4, h5, h6⟩ := hInv
  have hlive : id ∈ liveIds s := by
    rw [liveIds, List.mem_append, List.mem_append]
    rcases hid with h | h | h
    · exact Or.inl (Or.inl (h4 id h))
    · exact Or.inl (Or.inr (h5 id h))
    · exact Or.inr (h6 id h)
  have hmem : id ∈ s.layerOrder := (h2 id).2 hlive
  have hle := h3 id
  have hge : 1 ≤ s.layerOrder.count id := List.one_le_count_iff.mpr hmem
  omega

end StoryMaker

/-- C6: starting from any state satisfying the document invariant (in
particular the initial empty state), after any sequence of add and delete
operations with fresh generated ids, every id in each of the three selection
sets refers to a currently-live object of its kind; moreover for any object
currently selected, its id occurs in the layer order exactly once, and
deleting the selection removes the id from all three selection sets and
brings its layer-order occurrence count to zero (removed exactly once). -/
theorem C6_document_invariant (s : StoryMaker.AppState)
    (ops : List StoryMaker.DocOp)
    (hInv : StoryMaker.Inv s) (hwf : StoryMaker.OpsWF s ops) :
    StoryMaker.Inv (StoryMaker.runOps s ops) ∧
    (∀ id ∈ (StoryMaker.runOps s ops).selectedImageIds,
        id ∈ StoryMaker.imageIds (StoryMaker.runOps s ops)) ∧
    (∀ id ∈ (StoryMaker.runOps s ops).selectedTextIds,
        id ∈ StoryMaker.textIds (StoryMaker.runOps s ops)) ∧
    (∀ id ∈ (StoryMaker.runOps s ops).selectedDrawingCanvasIds,
        id ∈ StoryMaker.canvasIds (StoryMaker.runOps s ops)) ∧
    (∀ id, (id ∈ (StoryMaker.runOps s ops).selectedImageIds ∨
            id ∈ (StoryMaker.runOps s ops).selectedTextIds ∨
            id ∈ (StoryMaker.runOps s ops).selectedDrawingCanvasIds) →
      (StoryMaker.runOps s ops).layerOrder.count id = 1 ∧
      (StoryMaker.deleteSelectedObjects (StoryMaker.runOps s ops)).layerOrder.count id = 0 ∧
      id ∉ (StoryMaker.deleteSelectedObjects (StoryMaker.runOps s ops)).selectedImageIds ∧
      id ∉ (StoryMaker.deleteSelectedObjects (StoryMaker.runOps s ops)).selectedTextIds ∧
      id ∉ (StoryMaker.deleteSelectedObjects (StoryMaker.runOps s ops)).selectedDrawingCanvasIds) := by
  have hr := StoryMaker.Inv_runOps ops s hInv hwf
  refine ⟨hr, hr.2.2.2.1, hr.2.2.2.2.1, hr.2.2.2.2.2, ?_⟩
  intro id hid
  have hsel := StoryMaker.deleteSelected_selections (StoryMaker.runOps s ops)
  refine ⟨StoryMaker.count_one_of_selected _ hr id hid,
    StoryMaker.deleteSelected_count_zero _ id hid, ?_, ?_, ?_⟩
  · rw [hsel.1]
    simp
  · rw [hsel.2.1]
    simp
  · rw [hsel.2.2]
    simp

/-- Witness for C6 at a concrete input: the initial empty state and the
two-operation script "upload one image, delete the selection". -/
theorem C6_document_invariant_witness :
    (StoryMaker.Inv StoryMaker.initialState ∧
     StoryMaker.OpsWF StoryMaker.initialState StoryMaker.exampleOps) ∧
    (StoryMaker.Inv (StoryMaker.runOps StoryMaker.initialState StoryMaker.exampleOps) ∧
    (∀ id ∈ (StoryMaker.runOps StoryMaker.initialState StoryMaker.exampleOps).selectedImageIds,
        id ∈ StoryMaker.imageIds (StoryMaker.runOps StoryMaker.initialState StoryMaker.exampleOps)) ∧
    (∀ id ∈ (StoryMaker.runOps StoryMaker.initialState StoryMaker.exampleOps).selectedTextIds,
        id ∈ StoryMaker.textIds (StoryMaker.runOps StoryMaker.initialState StoryMaker.exampleOps)) ∧
    (∀ id ∈ (StoryMaker.runOps StoryMaker.initialState StoryMaker.exampleOps).selectedDrawingCanvasIds,
        id ∈ StoryMaker.canvasIds (StoryMaker.runOps StoryMaker.initialState StoryMaker.exampleOps)) ∧
    (∀ id, (id ∈ (StoryMaker.runOps StoryMaker.initialState StoryMaker.exampleOps).selectedImageIds ∨
            id ∈ (StoryMaker.runOps StoryMaker.initialState StoryMaker.exampleOps).selectedTextIds ∨
            id ∈ (StoryMaker.runOps StoryMaker.initialState StoryMaker.exampleOps).selectedDrawingCanvasIds) →
      (StoryMaker.runOps StoryMaker.initialState StoryMaker.exampleOps).layerOrder.count id = 1 ∧
      (StoryMaker.deleteSelectedObjects (StoryMaker.runOps StoryMaker.initialState StoryMaker.exampleOps)).layerOrder.count id = 0 ∧
      id ∉ (StoryMaker.deleteSelectedObjects (StoryMaker.runOps StoryMaker.initialState StoryMaker.exampleOps)).selectedImageIds ∧
      id ∉ (StoryMaker.deleteSelectedObjects (StoryMaker.runOps StoryMaker.initialState StoryMaker.exampleOps)).selectedTextIds ∧
      id ∉ (StoryMaker.deleteSelectedObjects (StoryMaker.runOps StoryMaker.initialState StoryMaker.exampleOps)).selectedDrawingCanvasIds)) := by
  have hInv : StoryMaker.Inv StoryMaker.initialState := by
    refine ⟨?_, ?_, ?_, ?_, ?_, ?_⟩ <;>
      simp [StoryMaker.initialState, StoryMaker.liveIds, StoryMaker.imageIds,
        StoryMaker.textIds, StoryMaker.canvasIds]
  have hwf : StoryMaker.OpsWF StoryMaker.initialState StoryMaker.exampleOps := by
    refine ⟨?_, ?_, trivial⟩
    · show "img_1" ∉ StoryMaker.liveIds StoryMaker.initialState
      simp [StoryMaker.initialState, StoryMaker.liveIds, StoryMaker.imageIds,
        StoryMaker.textIds, StoryMaker.canvasIds]
    · trivial
  exact ⟨⟨hInv, hwf⟩, C6_document_invariant _ _ hInv hwf⟩

namespace StoryMaker

theorem mem_insertByX (a c : EditItem) (l : List EditItem) :
    c ∈ insertByX a l ↔ c = a ∨ c ∈ l := by
  induction l with
  | nil => simp [insertByX]
  | cons b bs ih =>
    unfold insertByX
    split
    · simp [List.mem_cons]
    · simp [List.mem_cons, ih]
      tauto

theorem pairwise_insertByX (a : EditItem) (l : List EditItem)
    (h : l.Pairwise (fun p q => p.x ≤ q.x)) :
    (insertByX a l).Pairwise (fun p q => p.x ≤ q.x) := by
  induction l with
  | nil => simp [insertByX]
  | cons b bs ih =>
    unfold insertByX
    rw [List.pairwise_cons] at h
    split
    · rename_i hab
      rw [List.pairwise_cons]
      constructor
      · intro c hc
        rcases List.mem_cons.mp hc with rfl | hc'
        · exact le_of_lt hab
        · exact le_trans (le_of_lt hab) (h.1 c hc')
      · exact List.pairwise_cons.mpr h
    · rename_i hab
      rw [List.pairwise_cons]
      constructor
      · intro c hc
        rcases (mem_insertByX a c bs).mp hc with rfl | hc'
        · exact le_of_not_lt hab
        · exact h.1 c hc'
      · exact ih h.2

theorem sortByX_pairwise (l : List EditItem) :
    (sortByX l).Pairwise (fun p q => p.x ≤ q.x) := by
  induction l with
  | nil => simp [sortByX]
  | cons a rest ih => exact pairwise_insertByX a (sortByX rest) ih

theorem insertByX_perm (a : EditItem) (l : List EditItem) :
    (insertByX a l).Perm (a :: l) := by
  induction l with
  | nil => simp [insertByX]
  | cons b bs ih =>
    unfold insertByX
    split
    · exact List.Perm.refl _
    · exact (ih.cons b).trans (List.Perm.swap a b bs)

theorem sortByX_perm (l : List EditItem) : (sortByX l).Perm l := by
  induction l with
  | nil
 => simp [sortByX]
  | cons a rest ih => exact (insertByX_perm a (sortByX rest)).trans (ih.cons a)

theorem map_pair_insertByX (a : EditItem) (l : List EditItem) :
    (insertByX a l).map (fun it => (it.id, it.x)) =
      insertPairByX (a.id, a.x) (l.map (fun it => (it.id, it.x))) := by
  induction l with
  | nil => rfl
  | cons b bs ih =>
    simp only [insertByX, insertPairByX, List.map_cons]
    by_cases h : a.x < b.x <;> simp [h, ih]

theorem map_pair_sortByX (l : List EditItem) :
    (sortByX l).map (fun it => (it.id, it.x)) =
      sortPairsByX (l.map (fun it => (it.id, it.x))) := by
  induction l with
  | nil => rfl
  | cons a rest ih =>
    simp only [sortByX, sortPairsByX, List.map_cons]
    rw [map_pair_insertByX, ih]

theorem lookupLastBadge_cons_ne (x : String × Nat) (m : List (String × Nat))
    (key : String) (h : ¬ x.1 = key) :
    lookupLastBadge (x :: m) key = lookupLastBadge m key := by
  unfold lookupLastBadge
  rw [List.filter_cons, if_neg (by simp [h])]

theorem lookupLastBadge_cons_eq_of_rest_nil (x : String × Nat)
    (m : List (String × Nat)) (h : m.filter (fun p => p.1 = x.1) = []) :
    lookupLastBadge (x :: m) x.1 = x.2 := by
  unfold lookupLastBadge
  rw [List.filter_cons, if_pos (by simp), h]
  simp

theorem badge_keys_mem (k : Nat) (L : List (String × ℚ)) (e : String × Nat)
    (he : e ∈ (L.enumFrom k).map (fun p => (p.2.1, p.1 + 1))) :
    e.1 ∈ L.map Prod.fst := by
  induction L generalizing k with
  | nil => simp at he
  | cons p t ih =>
    simp only [List.enumFrom_cons, List.map_cons, List.mem_cons] at he ⊢
    rcases he with rfl | he'
    · exact Or.inl rfl
    · exact Or.inr (ih (k + 1) he')

theorem lookupLastBadge_enumFrom (L : List (String × ℚ)) :
    ∀ (k i : Nat) (h : i < L.length), (L.map Prod.fst).Nodup →
    lookupLastBadge ((L.enumFrom k).map (fun p => (p.2.1, p.1 + 1)))
      (L.get ⟨i, h⟩).1 = k + i + 1 := by
  induction L with
  | nil =>
    intro k i h
    simp at h
  | cons p t ih =>
    intro k i h hnd
    simp only [List.map_cons, List.nodup_cons] at hnd
    cases i with
    | zero =>
      simp only [List.enumFrom_cons, List.map_cons, List.get]
      have hrest : ((t.enumFrom (k + 1)).map
          (fun p => (p.2.1, p.1 + 1))).filter (fun q => q.1 = p.1) = [] := by
        rw [List.filter_eq_nil_iff]
        intro e he
        simp only [decide_eq_true_eq]
        intro heq
        exact hnd.1 (heq ▸ badge_keys_mem (k + 1) t e he)
      have := lookupLastBadge_cons_eq_of_rest_nil (p.1, k + 1) _ hrest
      simpa using this
    | succ j =>
      have hj : j < t.length := by
        simpa using h
      have hkey : (t.get ⟨j, hj⟩).1 ∈ t.map Prod.fst :=
        List.mem_map.mpr ⟨t.get ⟨j, hj⟩, List.get_mem t j hj, rfl⟩
      have hne : ¬ p.1 = (t.get ⟨j, hj⟩).1 := fun heq => hnd.1 (heq ▸ hkey)
      simp only [List.enumFrom_cons, List.map_cons, List.get]
      rw [lookupLastBadge_cons_ne _ _ _ hne]
      have := ih (k + 1) j hj hnd.2
      rw [this]
      omega

end StoryMaker

namespace StoryMaker

theorem allSelectedPairs_no_texts (s : AppState) (ht : s.selectedTextIds = []) :
    allSelectedPairs s =
      ((selectedImagesOf s).map imageToItem ++
        (selectedCanvasesOf s).map canvasToItem).map (fun it => (it.id, it.x)) := by
  unfold allSelectedPairs selectedTextsOf
  rw [ht]
  simp only [List.map_append, List.map_map]
  congr 1 <;>
    simp [imageToItem, canvasToItem, Function.comp_def]

theorem sortPairs_editable (s : AppState) (ht : s.selectedTextIds = []) :
    sortPairsByX (allSelectedPairs s) =
      (editableItemsOf s).map (fun it => (it.id, it.x)) := by
  rw [allSelectedPairs_no_texts s ht]
  unfold editableItemsOf
  rw [map_pair_sortByX]

end StoryMaker

namespace StoryMaker

theorem isMatching_916_r9x16 :
    isMatchingAspectRatio [exampleItem916] .r9x16 = true := by
  simp only [isMatchingAspectRatio, decide_eq_true_eq]
  norm_num [exampleItem916, AspectRatio.w, AspectRatio.h]

theorem isMatching_916_r1x1 :
    isMatchingAspectRatio [exampleItem916] .r1x1 = false := by
  simp only [isMatchingAspectRatio, decide_eq_false_iff_not]
  norm_num [exampleItem916, AspectRatio.w, AspectRatio.h]
  rw [abs_of_nonneg (by norm_num)]
  norm_num

theorem genPath_916_r9x16 :
    genPath [exampleItem916] .r9x16 = .oneStep none := by
  unfold genPath
  rw [if_neg (by simp), if_pos ⟨rfl, isMatching_916_r9x16⟩]
  simp [exampleItem916]

theorem genPath_916_r1x1 :
    genPath [exampleItem916] .r1x1 = .twoStep := by
  unfold genPath
  rw [if_neg (by simp), if_neg ?_]
  rintro ⟨-, hm⟩
  rw [isMatching_916_r1x1] at hm
  exact Bool.false_ne_true hm

end StoryMaker

/-- C5: the packed reference list (`editableItems`, the selected images and
drawing canvases) is sorted ascending by x and is a permutation of the
selected editable items; for a selection of editable items only (no text
objects) with more than one object selected and distinct ids, the 1-based
selection-order badge of each packed item equals its rank in the ascending-x
ordering; concretely, three selected items at x = 50, 10, 30 pack in order
[item@10, item@30, item@50] with badges 1, 2, 3. -/
theorem C5_reference_order (s : StoryMaker.AppState) :
    (StoryMaker.editableItemsOf s).Pairwise (fun p q => p.x ≤ q.x) ∧
    (StoryMaker.editableItemsOf s).Perm
      ((StoryMaker.selectedImagesOf s).map StoryMaker.imageToItem ++
        (StoryMaker.selectedCanvasesOf s).map StoryMaker.canvasToItem) ∧
    (s.selectedTextIds = [] →
      ¬ (s.selectedImageIds.length + s.selectedTextIds.length +
          s.selectedDrawingCanvasIds.length ≤ 1) →
      ((StoryMaker.editableItemsOf s).map (fun it => it.id)).Nodup →
      ∀ i (h : i < (StoryMaker.editableItemsOf s).length),
        StoryMaker.selectionOrder s
          ((StoryMaker.editableItemsOf s).get ⟨i, h⟩).id = i + 1) ∧
    ((StoryMaker.editableItemsOf StoryMaker.exampleSelState).map
        (fun it => (it.id, it.x)) = [("b", 10), ("c", 30), ("a", 50)] ∧
      StoryMaker.selectionOrder StoryMaker.exampleSelState "b" = 1 ∧
      StoryMaker.selectionOrder StoryMaker.exampleSelState "c" = 2 ∧
      StoryMaker.selectionOrder StoryMaker.exampleSelState "a" = 3) := by
  refine ⟨StoryMaker.sortByX_pairwise _, StoryMaker.sortByX_perm _, ?_, ?_⟩
  · intro ht htot hnd i h
    have hL : StoryMaker.sortPairsByX (StoryMaker.allSelectedPairs s) =
        (StoryMaker.editableItemsOf s).map (fun it => (it.id, it.x)) :=
      StoryMaker.sortPairs_editable s ht
    have hlen : i < ((StoryMaker.editableItemsOf s).map
        (fun it => (it.id, it.x))).length := by
      simpa using h
    have hnd' : (((StoryMaker.editableItemsOf s).map
        (fun it => (it.id, it.x))).map Prod.fst).Nodup := by
      rw [List.map_map]
      simpa [Function.comp_def] using hnd
    have hbadge := StoryMaker.lookupLastBadge_enumFrom
      ((StoryMaker.editableItemsOf s).map (fun it => (it.id, it.x))) 0 i hlen hnd'
    have hget : (((StoryMaker.editableItemsOf s).map
        (fun it => (it.id, it.x))).get ⟨i, hlen⟩).1 =
        ((StoryMaker.editableItemsOf s).get ⟨i, h⟩).id := by
      simp [List.get_map]
    unfold StoryMaker.selectionOrder StoryMaker.selectionOrderPairs
    rw [if_neg htot, List.enum_eq_enumFrom, hL, ← hget]
    rw [hbadge]
    omega
  · refine ⟨by decide, by decide, by decide, by decide⟩

/-- Witness for C5 at a concrete input: the three-image selection at
x = 50, 10, 30; the first packed item (x = 10, id "b") carries badge 1. -/
theorem C5_reference_order_witness :
    (StoryMaker.exampleSelState.selectedTextIds = [] ∧
     ¬ (StoryMaker.exampleSelState.selectedImageIds.length +
        StoryMaker.exampleSelState.selectedTextIds.length +
        StoryMaker.exampleSelState.selectedDrawingCanvasIds.length ≤ 1) ∧
     ((StoryMaker.editableItemsOf StoryMaker.exampleSelState).map
        (fun it => it.id)).Nodup ∧
     0 < (StoryMaker.editableItemsOf StoryMaker.exampleSelState).length) ∧
    StoryMaker.selectionOrder StoryMaker.exampleSelState "b" = 0 + 1 := by
  have h := (C5_reference_order StoryMaker.exampleSelState).2.2.1
    (by decide) (by decide) (by decide) 0 (by decide)
  have hid : ((StoryMaker.editableItemsOf StoryMaker.exampleSelState).get
      ⟨0, by decide⟩).id = "b" := by decide
  exact ⟨⟨by decide, by decide, by decide, by decide⟩, hid ▸ h⟩

/-- C4: a single selected editable item is classified aspect-ratio matching
iff `|width/height − targetW/targetH| < 0.01`; a matching single item routes
to the single-step edit path carrying the item's mask, and a non-matching or
multi-item selection routes to the two-step edit + pad + outpaint path; in
particular a 900×1600 item matches target 9:16 and does not match 1:1. -/
theorem C4_aspect_ratio_match (it : StoryMaker.EditItem)
    (items : List StoryMaker.EditItem) (ar : StoryMaker.AspectRatio) :
    (StoryMaker.isMatchingAspectRatio [it] ar = true ↔
      |it.width / it.height - ar.w / ar.h| < 1/100) ∧
    (items ≠ [] → items.length = 1 →
      StoryMaker.isMatchingAspectRatio items ar = true →
      StoryMaker.genPath items ar =
        .oneStep (items.head?.bind (fun i => i.maskSrc))) ∧
    (items ≠ [] →
      (items.length ≠ 1 ∨ StoryMaker.isMatchingAspectRatio items ar = false) →
      StoryMaker.genPath items ar = .twoStep) ∧
    (StoryMaker.isMatchingAspectRatio [StoryMaker.exampleItem916] .r9x16 = true ∧
     StoryMaker.genPath [StoryMaker.exampleItem916] .r9x16 = .oneStep none) ∧
    (StoryMaker.isMatchingAspectRatio [StoryMaker.exampleItem916] .r1x1 = false ∧
     StoryMaker.genPath [StoryMaker.exampleItem916] .r1x1 = .twoStep) := by
  refine ⟨?_, ?_, ?_,
    ⟨StoryMaker.isMatching_916_r9x16, StoryMaker.genPath_916_r9x16⟩,
    ⟨StoryMaker.isMatching_916_r1x1, StoryMaker.genPath_916_r1x1⟩⟩
  · unfold StoryMaker.isMatchingAspectRatio
    simp
  · intro hne hlen hmatch
    unfold StoryMaker.genPath
    rw [if_neg (by simp [List.isEmpty_iff, hne]), if_pos ⟨hlen, hmatch⟩]
  · intro hne hcase
    unfold StoryMaker.genPath
    rw [if_neg (by simp [List.isEmpty_iff, hne]), if_neg ?_]
    rintro ⟨h1, h2⟩
    rcases hcase with hc | hc
    · exact hc h1
    · rw [hc] at h2
      exact Bool.false_ne_true h2

/-- Witness for C4 at a concrete input: the 900×1600 item against target
9:16 goes to the single-step path. -/
theorem C4_aspect_ratio_match_witness :
    (([StoryMaker.exampleItem916] : List StoryMaker.EditItem) ≠ [] ∧
     ([StoryMaker.exampleItem916] : List StoryMaker.EditItem).length = 1 ∧
     StoryMaker.isMatchingAspectRatio [StoryMaker.exampleItem916] .r9x16 = true) ∧
    StoryMaker.genPath [StoryMaker.exampleItem916] .r9x16 =
      .oneStep (([StoryMaker.exampleItem916] :
        List StoryMaker.EditItem).head?.bind (fun i => i.maskSrc)) :=
  ⟨⟨by decide, rfl, StoryMaker.isMatching_916_r9x16⟩,
    (C4_aspect_ratio_match StoryMaker.exampleItem916
      [StoryMaker.exampleItem916] .r9x16).2.1 (by decide) rfl
      StoryMaker.isMatching_916_r9x16⟩

/-- C3: in the retry loop (fixed `maxRetries = 3`), an error carrying parsed
code 503 or status UNAVAILABLE, or an overloaded/unavailable/503 message, is
classified overload and (safety and client classes aside, while attempts
remain) retried after the capped exponential delay `min(1000·2^(attempt−1),
5000)`, which is non-decreasing, strictly increasing below the cap and never
above it; an error carrying code 429 / RESOURCE_EXHAUSTED / a quota message
is classified quota and retried after the fixed 5000 ms delay, which is never
shorter than the overload delay at the same attempt; a safety/prohibited
message terminates the loop immediately, regardless of remaining attempts. -/
theorem C3_retry_classification (e : StoryMaker.GenError) (a : Nat) :
    (∀ p, e.parsed = some p →
      p.code = some 503 ∨ p.status = some "UNAVAILABLE" →
      StoryMaker.is503 e = true) ∧
    (StoryMaker.inclMsg e "503" = true ∨ StoryMaker.inclMsg e "overloaded" = true ∨
      StoryMaker.inclMsg e "unavailable" = true → StoryMaker.is503 e = true) ∧
    (∀ p, e.parsed = some p →
      p.code = some 429 ∨ p.status = some "RESOURCE_EXHAUSTED" →
      StoryMaker.is429 e = true) ∧
    (StoryMaker.inclMsg e "429" = true ∨ StoryMaker.inclMsg e "quota" = true →
      StoryMaker.is429 e = true) ∧
    (StoryMaker.isSafetyError e = false → StoryMaker.isClientError e = false →
      StoryMaker.is503 e = true → a < StoryMaker.maxRetries →
      StoryMaker.classifyAndAct e a StoryMaker.maxRetries =
        .retryAfter (StoryMaker.overloadDelay a)) ∧
    (1 ≤ a →
      StoryMaker.overloadDelay a ≤ StoryMaker.overloadDelay (a + 1) ∧
      (StoryMaker.overloadDelay (a + 1) < 5000 →
        StoryMaker.overloadDelay a < StoryMaker.overloadDelay (a + 1)) ∧
      StoryMaker.overloadDelay a ≤ 5000) ∧
    (StoryMaker.isSafetyError e = false → StoryMaker.isClientError e = false →
      StoryMaker.is503 e = false → StoryMaker.is429 e = true →
      a < StoryMaker.maxRetries →
      StoryMaker.classifyAndAct e a StoryMaker.maxRetries = .retryAfter 5000 ∧
      StoryMaker.overloadDelay a ≤ 5000) ∧
    (StoryMaker.isSafetyError e = true →
      StoryMaker.classifyAndAct e a StoryMaker.maxRetries =
        .terminate StoryMaker.safetyBlockMessage) := by
  refine ⟨?_, ?_, ?_, ?_, ?_, ?_, ?_, ?_⟩
  · intro p hp hor
    rcases hor with hc | hs
    · simp [StoryMaker.is503, hp, hc]
    · simp [StoryMaker.is503, hp, hs]
  · intro hor
    rcases hor with h | h | h <;> simp [StoryMaker.is503, h]
  · intro p hp hor
    rcases hor with hc | hs
    · simp [StoryMaker.is429, hp, hc]
    · simp [StoryMaker.is429, hp, hs]
  · intro hor
    rcases hor with h | h <;> simp [StoryMaker.is429, h]
  · intro hsafe hclient h503 hlt
    simp [StoryMaker.classifyAndAct, hsafe, hclient, hlt,
      StoryMaker.retryDelay, h503]
  · intro ha
    have hsplit : a + 1 - 1 = (a - 1) + 1 := by omega
    have hpow : (2 : Nat) ^ (a + 1 - 1) = 2 ^ (a - 1) * 2 := by
      rw [hsplit, pow_succ]
    have hone : 1 ≤ (2 : Nat) ^ (a - 1) := Nat.one_le_two_pow
    unfold StoryMaker.overloadDelay
    rw [hpow]
    refine ⟨?_, ?_, ?_⟩ <;> omega
  · intro hsafe hclient h503 h429 hlt
    constructor
    · simp [StoryMaker.classifyAndAct, hsafe, hclient, hlt,
        StoryMaker.retryDelay, h503, h429]
    · exact Nat.min_le_right _ _
  · intro hsafe
    simp [StoryMaker.classifyAndAct, hsafe]

/-- Witness for C3 at a concrete input: a parsed `{code: 503}` error with an
"overloaded" message, at attempt 1, is retried after `overloadDelay 1`
(= 1000 ms). -/
theorem C3_retry_classification_witness :
    (StoryMaker.isSafetyError StoryMaker.exampleErr503 = false ∧
     StoryMaker.isClientError StoryMaker.exampleErr503 = false ∧
     StoryMaker.is503 StoryMaker.exampleErr503 = true ∧
     1 < StoryMaker.maxRetries) ∧
    StoryMaker.classifyAndAct StoryMaker.exampleErr503 1 StoryMaker.maxRetries =
      .retryAfter (StoryMaker.overloadDelay 1) :=
  ⟨⟨by decide, by decide, by decide, by decide⟩,
    (C3_retry_classification StoryMaker.exampleErr503 1).2.2.2.2.1
      (by decide) (by decide) (by decide) (by decide)⟩

namespace StoryMaker

theorem clearMasksOfSelected_none (sel : List String)
    (imgs : List (ImageObj DataUrl)) :
    ∀ i ∈ clearMasksOfSelected sel imgs, i.id ∈ sel → i.maskSrc = none := by
  intro i hi hsel
  unfold clearMasksOfSelected at hi
  rcases List.mem_map.mp hi with ⟨a, ha, rfl⟩
  by_cases h : a.id ∈ sel
  · simp [h]
  · rw [if_neg h] at hsel ⊢
    exact absurd hsel h

theorem clearMasksIfPresent_none (sel : List String)
    (imgs : List (ImageObj DataUrl)) :
    ∀ i ∈ clearMasksIfPresent sel imgs, i.id ∈ sel → i.maskSrc = none := by
  intro i hi hsel
  unfold clearMasksIfPresent at hi
  rcases List.mem_map.mp hi with ⟨a, ha, rfl⟩
  by_cases h : a.id ∈ sel ∧ a.maskSrc ≠ none
  · simp [h]
  · rw [if_neg h] at hsel ⊢
    rcases Decidable.not_and_iff_or_not.mp h with h' | h'
    · exact absurd hsel h'
    · exact Decidable.not_not.mp h'

end StoryMaker

namespace StoryMaker

theorem onBackgroundClick_images (s : AppState) :
    (onBackgroundClick s).images =
      if s.selectedImageIds ≠ [] then
        clearMasksIfPresent s.selectedImageIds s.images
      else s.images := by
  unfold onBackgroundClick
  dsimp only
  by_cases h1 : s.selectedImageIds ≠ [] <;>
    by_cases h2 : s.activeTool = .text ∨ s.activeTool = .pen ∨ s.activeTool = .eraser <;>
      simp [h1, h2]

end StoryMaker

/-- C8 counterexample: the claim that `maskSrc` is cleared after every
generation attempt, whether it succeeds or fails, is false — a failed
attempt (here a terminal safety block on a state whose single selected image
carries a mask) leaves the image list, and in particular its `maskSrc`,
untouched.  The catch block of `handleGenerateImage` only updates the error
surface; the mask-clearing `setImages` runs exclusively on the success path. -/
theorem C8_counterexample :
    (StoryMaker.runGeneration StoryMaker.exampleMaskState "add a hat"
        [StoryMaker.EditOutcome.fail StoryMaker.exampleErrSafety]
        "img_9" 10 10 800 600).images.map (fun i => i.maskSrc)
      = [some StoryMaker.examplePayload] ∧
    StoryMaker.exampleMaskState.selectedImageIds = ["a"] ∧
    (StoryMaker.exampleMaskState.images.map (fun i => i.id)) = ["a"] := by
  refine ⟨?_, rfl, by decide⟩
  decide

/-- C8 amended: `maskSrc` is ephemeral in the weaker sense the code
implements — a successful generation attempt (which invokes the success tail
`generationSuccess`) clears the mask of every previously-selected image, and
a background-click deselection clears the masks of the selected images; a
failed attempt leaves masks in place (see the counterexample). -/
theorem C8_mask_cleared_amended (s : StoryMaker.AppState) (prompt : String)
    (img : StoryMaker.DataUrl) (genId : String) (nw nh cw chh : ℚ)
    (rest : List StoryMaker.EditOutcome) :
    StoryMaker.runGeneration s prompt (.ok img :: rest) genId nw nh cw chh =
      StoryMaker.generationSuccess s prompt img genId nw nh cw chh ∧
    (∀ i ∈ (StoryMaker.generationSuccess s prompt img genId nw nh cw chh).images,
        i.id ∈ s.selectedImageIds → i.maskSrc = none) ∧
    (∀ i ∈ (StoryMaker.onBackgroundClick s).images,
        i.id ∈ s.selectedImageIds → i.maskSrc = none) := by
  refine ⟨rfl, ?_, ?_⟩
  · intro i hi hsel
    unfold StoryMaker.generationSuccess StoryMaker.addImageToCanvas at hi
    dsimp only at hi
    rw [List.mem_append] at hi
    rcases hi with hmem | hnew
    · exact StoryMaker.clearMasksOfSelected_none _ _ i hmem hsel
    · rw [List.mem_singleton] at hnew
      subst hnew
      rfl
  · intro i hi hsel
    rw [StoryMaker.onBackgroundClick_images] at hi
    by_cases hne : s.selectedImageIds ≠ []
    · rw [if_pos hne] at hi
      exact StoryMaker.clearMasksIfPresent_none _ _ i hi hsel
    · rw [not_ne_iff] at hne
      rw [hne] at hsel
      exact absurd hsel (List.not_mem_nil _)

namespace StoryMaker

theorem SubSt.rfl (st : SaveSt) : SubSt st st := fun _ he => he

theorem SubSt.trans {s1 s2 s3 : SaveSt} (h1 : SubSt s1 s2) (h2 : SubSt s2 s3) :
    SubSt s1 s3 := fun e he => h2 e (h1 e he)

theorem addAsset_good (du : DataUrl) (st : SaveSt) (h : GoodSt st) :
    GoodSt (addAsset du st).2 := by
  obtain ⟨h1, h2⟩ := h
  constructor
  · simp only [addAsset, List.map_append, List.map_cons, List.map_nil]
    rw [List.pairwise_append]
    refine ⟨h1, by simp, ?_⟩
    intro a ha b hb
    rw [List.mem_singleton] at hb
    subst hb
    exact h2 a ha
  · intro k hk
    simp only [addAsset, List.map_append, List.map_cons, List.map_nil,
      List.mem_append, List.mem_singleton] at hk
    rcases hk with hk | rfl
    · exact Nat.lt_succ_of_lt (h2 k hk)
    · exact Nat.lt_succ_self _

theorem addAsset_sub (du : DataUrl) (st : SaveSt) : SubSt st (addAsset du st).2 := by
  intro e he
  simp only [addAsset, List.mem_append]
  exact Or.inl he

theorem addAsset_entry (du : DataUrl) (st : SaveSt) :
    ((addAsset du st).1, du.bytes) ∈ (addAsset du st).2.assets := by
  simp [addAsset, parseDataUrl]

theorem saveOptAsset_good (o : Option DataUrl) (st : SaveSt) (h : GoodSt st) :
    GoodSt (saveOptAsset o st).2 := by
  cases o with
  | none => exact h
  | some du => exact addAsset_good du st h

theorem saveOptAsset_sub (o : Option DataUrl) (st : SaveSt) :
    SubSt st (saveOptAsset o st).2 := by
  cases o with
  | none => exact SubSt.rfl st
  | some du => exact addAsset_sub du st

theorem savePoseList_good (ps : List (Option DataUrl)) :
    ∀ st : SaveSt, GoodSt st → GoodSt (savePoseList ps st).2 := by
  induction ps with
  | nil => intro st h; exact h
  | cons p rest ih =>
    intro st h
    exact ih _ (saveOptAsset_good p st h)

theorem savePoseList_sub (ps : List (Option DataUrl)) :
    ∀ st : SaveSt, SubSt st (savePoseList ps st).2 := by
  induction ps with
  | nil => intro st; exact SubSt.rfl st
  | cons p rest ih =>
    intro st
    exact (saveOptAsset_sub p st).trans (ih _)

theorem saveImage_good (img : ImageObj DataUrl) (st : SaveSt) (h : GoodSt st) :
    GoodSt (saveImage img st).2 := by
  unfold saveImage
  cases img.poses with
  | none =>
    exact saveOptAsset_good _ _ (saveOptAsset_good _ _
      (saveOptAsset_good _ _ (addAsset_good _ _ h)))
  | some ps =>
    exact saveOptAsset_good _ _ (saveOptAsset_good _ _
      (savePoseList_good ps _ (saveOptAsset_good _ _ (addAsset_good _ _ h))))

theorem saveImage_sub (img : ImageObj DataUrl) (st : SaveSt) :
    SubSt st (saveImage img st).2 := by
  unfold saveImage
  cases img.poses with
  | none =>
    exact (((addAsset_sub _ _).trans (saveOptAsset_sub _ _)).trans
      (saveOptAsset_sub _ _)).trans (saveOptAsset_sub _ _)
  | some ps =>
    exact ((((addAsset_sub _ _).trans (saveOptAsset_sub _ _)).trans
      (savePoseList_sub ps _)).trans (saveOptAsset_sub _ _)).trans
      (saveOptAsset_sub _ _)

theorem saveImageList_good (imgs : List (ImageObj DataUrl)) :
    ∀ st : SaveSt, GoodSt st → GoodSt (saveImageList imgs st).2 := by
  induction imgs with
  | nil => intro st h; exact h
  | cons img rest ih =>
    intro st h
    exact ih _ (saveImage_good img st h)

theorem saveImageList_sub (imgs : List (ImageObj DataUrl)) :
    ∀ st : SaveSt, SubSt st (saveImageList imgs st).2 := by
  induction imgs with
  | nil => intro st; exact SubSt.rfl st
  | cons img rest ih =>
    intro st
    exact (saveImage_sub img st).trans (ih _)

theorem saveDrawing_good (c : DrawingObj DataUrl) (st : SaveSt) (h : GoodSt st) :
    GoodSt (saveDrawing c st).2 :=
  saveOptAsset_good _ _ h

theorem saveDrawing_sub (c : DrawingObj DataUrl) (st : SaveSt) :
    SubSt st (saveDrawing c st).2 :=
  saveOptAsset_sub _ _

theorem saveDrawingList_good (cs : List (DrawingObj DataUrl)) :
    ∀ st : SaveSt, GoodSt st → GoodSt (saveDrawingList cs st).2 := by
  induction cs with
  | nil => intro st h; exact h
  | cons c rest ih =>
    intro st h
    exact ih _ (saveDrawing_good c st h)

theorem saveDrawingList_sub (cs : List (DrawingObj DataUrl)) :
    ∀ st : SaveSt, SubSt st (saveDrawingList cs st).2 := by
  induction cs with
  | nil => intro st; exact SubSt.rfl st
  | cons c rest ih =>
    intro st
    exact (saveDrawing_sub c st).trans (ih _)

theorem lookupAsset_eq_of_mem (A : List (Nat × List Nat))
    (hnd : (A.map Prod.fst).Nodup) (k : Nat) (b : List Nat)
    (hm : (k, b) ∈ A) : lookupAsset k A = some b := by
  induction A with
  | nil => simp at hm
  | cons e t ih =>
    simp only [List.map_cons, List.nodup_cons] at hnd
    rcases List.mem_cons.mp hm with heq | hm'
    · rw [← heq]
      unfold lookupAsset
      simp
    · have hne : k ≠ e.1 := by
        intro hk
        apply hnd.1
        rw [← hk]
        exact List.mem_map.mpr ⟨(k, b), hm', rfl⟩
      unfold lookupAsset
      rw [if_neg hne]
      exact ih hnd.2 hm'

theorem loadAsset_eq (A : List (Nat × List Nat)) (mime : String)
    (hnd : (A.map Prod.fst).Nodup) (k : Nat) (b : List Nat)
    (hm : (k, b) ∈ A) : loadAsset A mime k = { mimeType := mime, bytes := b } := by
  unfold loadAsset
  rw [lookupAsset_eq_of_mem A hnd k b hm]

end StoryMaker

namespace StoryMaker

theorem saveOptAsset_rec (o : Option DataUrl) (st : SaveSt)
    (A : List (Nat × List Nat)) (mime : String)
    (hnd : (A.map Prod.fst).Nodup)
    (hsub : ∀ e ∈ (saveOptAsset o st).2.assets, e ∈ A) :
    optPayloadEq (((saveOptAsset o st).1).map (loadAsset A mime)) o := by
  cases o with
  | none => simp [saveOptAsset, optPayloadEq]
  | some du =>
    show payloadEq (loadAsset A mime (addAsset du st).1) du
    have hmem : ((addAsset du st).1, du.bytes) ∈ A := hsub _ (addAsset_entry du st)
    rw [loadAsset_eq A mime hnd _ _ hmem]
    rfl

theorem savePoseList_rec (ps : List (Option DataUrl)) :
    ∀ (st : SaveSt) (A : List (Nat × List Nat)) (mime : String),
    (A.map Prod.fst).Nodup →
    (∀ e ∈ (savePoseList ps st).2.assets, e ∈ A) →
    List.Forall₂ optPayloadEq
      (((savePoseList ps st).1).map (Option.map (loadAsset A mime))) ps := by
  induction ps with
  | nil =>
    intro st A mime _ _
    simp [savePoseList]
  | cons p rest ih =>
    intro st A mime hnd hsub
    have hsub2 : ∀ e ∈ (savePoseList rest (saveOptAsset p st).2).2.assets,
        e ∈ A := fun e he => hsub e he
    show List.Forall₂ optPayloadEq
      ((((saveOptAsset p st).1 ::
        (savePoseList rest (saveOptAsset p st).2).1)).map
          (Option.map (loadAsset A mime))) (p :: rest)
    rw [List.map_cons]
    exact List.Forall₂.cons
      (saveOptAsset_rec p st A mime hnd
        (fun e he => hsub2 e (savePoseList_sub rest _ e he)))
      (ih _ A mime hnd hsub2)

theorem saveImage_rec (img : ImageObj DataUrl) (st : SaveSt)
    (A : List (Nat × List Nat)) (mime : String)
    (hnd : (A.map Prod.fst).Nodup)
    (hsub : ∀ e ∈ (saveImage img st).2.assets, e ∈ A) :
    imageMatches (loadImage A mime (saveImage img st).1) img := by
  cases hp : img.poses with
  | none =>
    unfold saveImage at hsub ⊢
    rw [hp] at hsub ⊢
    dsimp only at hsub ⊢
    unfold loadImage imageMatches
    dsimp only
    refine ⟨rfl, rfl, rfl, rfl, rfl, rfl, rfl, rfl, rfl, rfl, rfl, ?_, ?_, ?_, ?_, ?_⟩
    · have hmem : ((addAsset img.src st).1, img.src.bytes) ∈ A :=
        hsub _ (saveOptAsset_sub _ _ _ (saveOptAsset_sub _ _ _
          (saveOptAsset_sub _ _ _ (addAsset_entry img.src st))))
      show payloadEq (loadAsset A mime (addAsset img.src st).1) img.src
      rw [loadAsset_eq A mime hnd _ _ hmem]
      rfl
    · exact saveOptAsset_rec _ _ A mime hnd
        (fun e he => hsub e (saveOptAsset_sub _ _ _ (saveOptAsset_sub _ _ _ he)))
    · rw [hp]
      simp [posesEq]
    · exact saveOptAsset_rec _ _ A mime hnd
        (fun e he => hsub e (saveOptAsset_sub _ _ _ he))
    · exact saveOptAsset_rec _ _ A mime hnd (fun e he => hsub e he)
  | some ps =>
    unfold saveImage at hsub ⊢
    rw [hp] at hsub ⊢
    dsimp only at hsub ⊢
    unfold loadImage imageMatches
    dsimp only
    refine ⟨rfl, rfl, rfl, rfl, rfl, rfl, rfl, rfl, rfl, rfl, rfl, ?_, ?_, ?_, ?_, ?_⟩
    · have hmem : ((addAsset img.src st).1, img.src.bytes) ∈ A :=
        hsub _ (saveOptAsset_sub _ _ _ (saveOptAsset_sub _ _ _
          (savePoseList_sub ps _ _ (saveOptAsset_sub _ _ _
            (addAsset_entry img.src st)))))
      show payloadEq (loadAsset A mime (addAsset img.src st).1) img.src
      rw [loadAsset_eq A mime hnd _ _ hmem]
      rfl
    · exact saveOptAsset_rec _ _ A mime hnd
        (fun e he => hsub e (saveOptAsset_sub _ _ _ (saveOptAsset_sub _ _ _
          (savePoseList_sub ps _ _ he))))
    · rw [hp]
      show posesEq (some ((((savePoseList ps
        (saveOptAsset img.modelSheetSrc (addAsset img.src st).2).2).1)).map
          (Option.map (loadAsset A mime)))) (some ps)
      show List.Forall₂ optPayloadEq _ ps
      exact savePoseList_rec ps _ A mime hnd
        (fun e he => hsub e (saveOptAsset_sub _ _ _ (saveOptAsset_sub _ _ _ he)))
    · exact saveOptAsset_rec _ _ A mime hnd
        (fun e he => hsub e (saveOptAsset_sub _ _ _ he))
    · exact saveOptAsset_rec _ _ A mime hnd (fun e he => hsub e he)

end StoryMaker

namespace StoryMaker

theorem saveDrawing_rec (c : DrawingObj DataUrl) (st : SaveSt)
    (A : List (Nat × List Nat)) (mime : String)
    (hnd : (A.map Prod.fst).Nodup)
    (hsub : ∀ e ∈ (saveDrawing c st).2.assets, e ∈ A) :
    drawingMatches (loadDrawing A mime (saveDrawing c st).1) c := by
  unfold saveDrawing loadDrawing drawingMatches
  dsimp only
  exact ⟨rfl, rfl, rfl, rfl, rfl,
    saveOptAsset_rec _ _ A mime hnd (fun e he => hsub e he)⟩

theorem saveImageList_rec (imgs : List (ImageObj DataUrl)) :
    ∀ (st : SaveSt) (A : List (Nat × List Nat)) (mime : String),
    (A.map Prod.fst).Nodup →
    (∀ e ∈ (saveImageList imgs st).2.assets, e ∈ A) →
    List.Forall₂ imageMatches
      (((saveImageList imgs st).1).map (loadImage A mime)) imgs := by
  induction imgs with
  | nil =>
    intro st A mime _ _
    simp [saveImageList]
  | cons img rest ih =>
    intro st A mime hnd hsub
    have hsub2 : ∀ e ∈ (saveImageList rest (saveImage img st).2).2.assets,
        e ∈ A := fun e he => hsub e he
    show List.Forall₂ imageMatches
      ((((saveImage img st).1 ::
        (saveImageList rest (saveImage img st).2).1)).map (loadImage A mime))
      (img :: rest)
    rw [List.map_cons]
    exact List.Forall₂.cons
      (saveImage_rec img st A mime hnd
        (fun e he => hsub2 e (saveImageList_sub rest _ e he)))
      (ih _ A mime hnd hsub2)

theorem saveDrawingList_rec (cs : List (DrawingObj DataUrl)) :
    ∀ (st : SaveSt) (A : List (Nat × List Nat)) (mime : String),
    (A.map Prod.fst).Nodup →
    (∀ e ∈ (saveDrawingList cs st).2.assets, e ∈ A) →
    List.Forall₂ drawingMatches
      (((saveDrawingList cs st).1).map (loadDrawing A mime)) cs := by
  induction cs with
  | nil =>
    intro st A mime _ _
    simp [saveDrawingList]
  | cons c rest ih =>
    intro st A mime hnd hsub
    have hsub2 : ∀ e ∈ (saveDrawingList rest (saveDrawing c st).2).2.assets,
        e ∈ A := fun e he => hsub e he
    show List.Forall₂ drawingMatches
      ((((saveDrawing c st).1 ::
        (saveDrawingList rest (saveDrawing c st).2).1)).map (loadDrawing A mime))
      (c :: rest)
    rw [List.map_cons]
    exact List.Forall₂.cons
      (saveDrawing_rec c st A mime hnd
        (fun e he => hsub2 e (saveDrawingList_sub rest _ e he)))
      (ih _ A mime hnd hsub2)

end StoryMaker

/-- C2: saving a project and loading the produced archive round-trips the
document: the load succeeds, images / text objects / drawing canvases come
back object-for-object with byte-for-byte equal decoded payloads (every
populated optional field — modelSheet, poses, video, mask, drawing —
included), and layer order, aspect ratio, transform and project name are
restored unchanged. -/
theorem C2_save_load_roundtrip (s s₀ : StoryMaker.AppState) (loadedMime : String) :
    (StoryMaker.loadProjectFromFile (StoryMaker.handleSaveProject s) loadedMime s₀).2
      = false ∧
    List.Forall₂ StoryMaker.imageMatches
      ((StoryMaker.loadProjectFromFile (StoryMaker.handleSaveProject s) loadedMime
        s₀).1).images s.images ∧
    ((StoryMaker.loadProjectFromFile (StoryMaker.handleSaveProject s) loadedMime
      s₀).1).textObjects = s.textObjects ∧
    List.Forall₂ StoryMaker.drawingMatches
      ((StoryMaker.loadProjectFromFile (StoryMaker.handleSaveProject s) loadedMime
        s₀).1).drawingCanvases s.drawingCanvases ∧
    ((StoryMaker.loadProjectFromFile (StoryMaker.handleSaveProject s) loadedMime
      s₀).1).layerOrder = s.layerOrder ∧
    ((StoryMaker.loadProjectFromFile (StoryMaker.handleSaveProject s) loadedMime
      s₀).1).aspectRatio = s.aspectRatio ∧
    ((StoryMaker.loadProjectFromFile (StoryMaker.handleSaveProject s) loadedMime
      s₀).1).transform = s.transform ∧
    ((StoryMaker.loadProjectFromFile (StoryMaker.handleSaveProject s) loadedMime
      s₀).1).projectName = s.projectName := by
  have hGood0 : StoryMaker.GoodSt { counter := 0, assets := [] } :=
    ⟨List.Pairwise.nil, by simp⟩
  have hGood1 : StoryMaker.GoodSt
      (StoryMaker.saveImageList s.images { counter := 0, assets := [] }).2 :=
    StoryMaker.saveImageList_good s.images _ hGood0
  have hGoodF : StoryMaker.GoodSt
      (StoryMaker.saveDrawingList s.drawingCanvases
        (StoryMaker.saveImageList s.images { counter := 0, assets := [] }).2).2 :=
    StoryMaker.saveDrawingList_good s.drawingCanvases _ hGood1
  have hnd : (((StoryMaker.saveDrawingList s.drawingCanvases
      (StoryMaker.saveImageList s.images { counter := 0, assets := [] }).2).2.assets).map
        Prod.fst).Nodup :=
    List.Pairwise.imp (fun h => ne_of_lt h) hGoodF.1
  refine ⟨rfl, ?_, rfl, ?_, rfl, rfl, rfl, ?_⟩
  · exact StoryMaker.saveImageList_rec s.images _ _ loadedMime hnd
      (fun e he => StoryMaker.saveDrawingList_sub s.drawingCanvases _ e he)
  · exact StoryMaker.saveDrawingList_rec s.drawingCanvases _ _ loadedMime hnd
      (fun e he => he)
  · show (if s.projectName ≠ "" then s.projectName
        else StoryMaker.stripExtension (s.projectName ++ ".story")) = s.projectName
    by_cases hpn : s.projectName = ""
    · rw [hpn]
      simp only [ne_eq, not_true_eq_false, if_false]
      decide
    · rw [if_pos hpn]

namespace StoryMaker

theorem runGenerationAux_doc_unchanged (prompt genId : String)
    (nw nh cw chh : ℚ) (outcomes : List EditOutcome)
    (hfail : ∀ o ∈ outcomes, o.isFail = true) :
    ∀ (s : AppState) (attempt : Nat),
    (runGenerationAux s prompt genId nw nh cw chh attempt outcomes).images
        = s.images ∧
    (runGenerationAux s prompt genId nw nh cw chh attempt outcomes).textObjects
        = s.textObjects ∧
    (runGenerationAux s prompt genId nw nh cw chh attempt outcomes).drawingCanvases
        = s.drawingCanvases ∧
    (runGenerationAux s prompt genId nw nh cw chh attempt outcomes).layerOrder
        = s.layerOrder := by
  induction outcomes with
  | nil =>
    intro s attempt
    exact ⟨rfl, rfl, rfl, rfl⟩
  | cons o os ih =>
    intro s attempt
    cases o with
    | ok img =>
      have := hfail _ (List.mem_cons_self _ _)
      simp [EditOutcome.isFail] at this
    | fail e =>
      have hfail' : ∀ o ∈ os, o.isFail = true :=
        fun o ho => hfail o (List.mem_cons_of_mem _ ho)
      unfold runGenerationAux
      dsimp only
      cases hact : classifyAndAct e attempt maxRetries with
      | terminate msg =>
        exact ⟨rfl, rfl, rfl, rfl⟩
      | retryAfter d =>
        exact ih hfail' s (attempt + 1)

end StoryMaker

/-- C9: fallible operations are atomic on the document — a generation run in
which every attempt fails (terminal error or retries exhausted) leaves
images, text objects, drawing canvases and layer order exactly as they were
(new objects are added only on success), and loading an archive with no
`project.json` entry returns the current state unchanged together with the
load-failure notice. -/
theorem C9_failure_atomicity (s sl : StoryMaker.AppState)
    (prompt genId : String) (nw nh cw chh : ℚ)
    (outcomes : List StoryMaker.EditOutcome)
    (a : StoryMaker.Archive) (loadedMime : String)
    (hfail : ∀ o ∈ outcomes, o.isFail = true)
    (hmiss : a.projectJson = none) :
    ((StoryMaker.runGeneration s prompt outcomes genId nw nh cw chh).images
        = s.images ∧
     (StoryMaker.runGeneration s prompt outcomes genId nw nh cw chh).textObjects
        = s.textObjects ∧
     (StoryMaker.runGeneration s prompt outcomes genId nw nh cw chh).drawingCanvases
        = s.drawingCanvases ∧
     (StoryMaker.runGeneration s prompt outcomes genId nw nh cw chh).layerOrder
        = s.layerOrder) ∧
    StoryMaker.loadProjectFromFile a loadedMime sl = (sl, true) := by
  constructor
  · exact StoryMaker.runGenerationAux_doc_unchanged prompt genId nw nh cw chh
      outcomes hfail s 1
  · unfold StoryMaker.loadProjectFromFile
    rw [hmiss]

/-- Witness for C9 at a concrete input: three overload failures exhaust the
retries and leave the masked-image document untouched; loading the archive
without `project.json` returns the initial state unchanged with the failure
notice. -/
theorem C9_failure_atomicity_witness :
    ((∀ o ∈ [StoryMaker.EditOutcome.fail StoryMaker.exampleErr503,
             StoryMaker.EditOutcome.fail StoryMaker.exampleErr503,
             StoryMaker.EditOutcome.fail StoryMaker.exampleErr503],
        o.isFail = true) ∧
     StoryMaker.exampleBadArchive.projectJson = none) ∧
    ((StoryMaker.runGeneration StoryMaker.exampleMaskState "add a hat"
        [StoryMaker.EditOutcome.fail StoryMaker.exampleErr503,
         StoryMaker.EditOutcome.fail StoryMaker.exampleErr503,
         StoryMaker.EditOutcome.fail StoryMaker.exampleErr503]
        "img_9" 10 10 800 600).images = StoryMaker.exampleMaskState.images ∧
     (StoryMaker.runGeneration StoryMaker.exampleMaskState "add a hat"
        [StoryMaker.EditOutcome.fail StoryMaker.exampleErr503,
         StoryMaker.EditOutcome.fail StoryMaker.exampleErr503,
         StoryMaker.EditOutcome.fail StoryMaker.exampleErr503]
        "img_9" 10 10 800 600).textObjects = StoryMaker.exampleMaskState.textObjects ∧
     (StoryMaker.runGeneration StoryMaker.exampleMaskState "add a hat"
        [StoryMaker.EditOutcome.fail StoryMaker.exampleErr503,
         StoryMaker.EditOutcome.fail StoryMaker.exampleErr503,
         StoryMaker.EditOutcome.fail StoryMaker.exampleErr503]
        "img_9" 10 10 800 600).drawingCanvases
        = StoryMaker.exampleMaskState.drawingCanvases ∧
     (StoryMaker.runGeneration StoryMaker.exampleMaskState "add a hat"
        [StoryMaker.EditOutcome.fail StoryMaker.exampleErr503,
         StoryMaker.EditOutcome.fail StoryMaker.exampleErr503,
         StoryMaker.EditOutcome.fail StoryMaker.exampleErr503]
        "img_9" 10 10 800 600).layerOrder = StoryMaker.exampleMaskState.layerOrder) ∧
    StoryMaker.loadProjectFromFile StoryMaker.exampleBadArchive "application/octet-stream"
      StoryMaker.initialState = (StoryMaker.initialState, true) :=
  ⟨⟨by decide, rfl⟩,
    C9_failure_atomicity StoryMaker.exampleMaskState StoryMaker.initialState
      "add a hat" "img_9" 10 10 800 600
      [StoryMaker.EditOutcome.fail StoryMaker.exampleErr503,
       StoryMaker.EditOutcome.fail StoryMaker.exampleErr503,
       StoryMaker.EditOutcome.fail StoryMaker.exampleErr503]
      StoryMaker.exampleBadArchive "application/octet-stream"
      (by decide) rfl⟩
